import Mathlib

/-!
# Verification of the wisesum tax computation engine

Shallow embedding of the tax-computation core of the `wisesum-backend-hono`
repository, together with proofs and refutations of the frozen claims about
its specification.

Numeric model: the engine's JavaScript numbers are modelled by `ℚ` (exact
rational arithmetic) for the functional claims, matching the spec's
assumption that all monetary inputs are already-validated finite numbers.
JavaScript's cent rounding `Math.round(n * 100) / 100` is modelled exactly
(`Math.round` rounds half toward +∞).  A separate model with IEEE special
values (`JNum`) is used for the claim that is specifically about NaN and
±Infinity propagation (`Jx` namespace).

File layout: definitions translated from the source first (one namespace per
source module), then the lemmas and the claim theorems.
-/

/-- JavaScript `Math.round`: rounds to the nearest integer, halves toward +∞. -/
def jsRound (q : ℚ) : ℚ := (⌊q + 1/2⌋ : ℤ)

/-- `round2` helper shared by `stateTaxEngine.ts`, `estimatedQuartely.ts` and
`federalTaxEngine.ts`: `Math.round(n * 100) / 100`. -/
def round2 (q : ℚ) : ℚ := jsRound (q * 100) / 100

/-- `Number.EPSILON` (2⁻⁵²), used by the `round2` of `seTax.ts`. -/
def numberEpsilon : ℚ := 1 / 2 ^ 52

/-- `round2` helper of `seTax.ts`: `Math.round((n + Number.EPSILON) * 100) / 100`. -/
def round2eps (q : ℚ) : ℚ := jsRound ((q + numberEpsilon) * 100) / 100

/-- `clamp0` as written in `stateTaxEngine.ts`, `estimatedQuartely.ts` and
`federalTaxEngine.ts`: `n < 0 ? 0 : n`. -/
def clamp0 (q : ℚ) : ℚ := if q < 0 then 0 else q

theorem clamp0_nonneg (q : ℚ) : 0 ≤ clamp0 q := by
  unfold clamp0; split <;> [rfl; linarith]

theorem clamp0_mono {a b : ℚ} (h : a ≤ b) : clamp0 a ≤ clamp0 b := by
  unfold clamp0; split <;> split <;> first | rfl | linarith

theorem clamp0_of_nonneg {q : ℚ} (h : 0 ≤ q) : clamp0 q = q := by
  unfold clamp0; split <;> [linarith; rfl]

theorem jsRound_mono {a b : ℚ} (h : a ≤ b) : jsRound a ≤ jsRound b := by
  unfold jsRound
  exact_mod_cast Int.floor_le_floor (by linarith)

theorem round2_mono {a b : ℚ} (h : a ≤ b) : round2 a ≤ round2 b := by
  unfold round2
  have := jsRound_mono (a := a * 100) (b := b * 100) (by linarith)
  linarith

theorem jsRound_nonneg {q : ℚ} (h : 0 ≤ q) : 0 ≤ jsRound q := by
  unfold jsRound
  have : (0 : ℤ) ≤ ⌊q + 1/2⌋ := Int.le_floor.mpr (by push_cast; linarith)
  exact_mod_cast this

theorem round2_nonneg {q : ℚ} (h : 0 ≤ q) : 0 ≤ round2 q := by
  have : 0 ≤ jsRound (q * 100) := jsRound_nonneg (by linarith)
  unfold round2; linarith

theorem round2_zero : round2 0 = 0 := by norm_num [round2, jsRound]

namespace StateTaxEngine

/-! ## `src/lib/tax/stateTaxEngine.ts` -/

/-- Filing statuses accepted by the engine. -/
inductive FilingStatus where
  | single | mfj | mfs | hoh
deriving DecidableEq, Repr

/-- `TaxType` from `stateTaxEngine.ts`. -/
inductive TaxType where
  | flat | progressive
deriving DecidableEq, Repr

/-- One entry of a bracket table: `{ upTo: number | null; rate: number }`.
`none` stands for the JSON `null` (unbounded last bracket). -/
structure Bracket where
  upTo : Option ℚ
  rate : ℚ
deriving DecidableEq, Repr

/-- `StateTaxRules` (the fields the engine reads).  The TS optional record
fields `standardDeduction?/personalExemption?/brackets?` and their optional
per-status entries are collapsed into one `Option`-valued map each: an absent
record behaves exactly like a record with every status absent. -/
structure StateTaxRules where
  state : String
  year : ℤ
  hasIncomeTax : Bool
  taxType : Option TaxType := none
  flatRate : Option ℚ := none
  standardDeduction : FilingStatus → Option ℚ := fun _ => none
  personalExemption : FilingStatus → Option ℚ := fun _ => none
  brackets : FilingStatus → Option (List Bracket) := fun _ => none
  notes : Option String := none

/-- `StateTaxInput`. -/
structure StateTaxInput where
  state : String
  year : ℤ
  filingStatus : FilingStatus
  taxableIncome : ℚ

/-- One `breakdown` entry of a `StateTaxResult`. -/
structure BreakdownEntry where
  bracketUpTo : Option ℚ
  rate : ℚ
  amountTaxed : ℚ
  taxForBracket : ℚ
deriving DecidableEq, Repr

/-- `StateTaxResult`. -/
structure StateTaxResult where
  state : String
  year : ℤ
  hasIncomeTax : Bool
  taxableBase : ℚ
  tax : ℚ
  effectiveRate : ℚ
  breakdown : List BreakdownEntry
  note : Option String
deriving DecidableEq, Repr

/-- `NO_INCOME_TAX_STATES`. -/
def NO_INCOME_TAX_STATES : List String :=
  ["AK", "FL", "NV", "SD", "TN", "TX", "WA", "WY"]

/-- `toUpperCase` over the character list (ASCII case mapping — state codes
are ASCII). -/
def jsToUpper (s : String) : String := String.mk (s.data.map Char.toUpper)

/-- `trim` over the character list: strip leading and trailing whitespace. -/
def jsTrim (s : String) : String :=
  String.mk (((s.data.dropWhile Char.isWhitespace).reverse.dropWhile
    Char.isWhitespace).reverse)

/-- `normalizeState`: `String(s || "").toUpperCase().trim()`. -/
def normalizeState (s : String) : String := jsTrim (jsToUpper s)

/-- The loop body of `applyBrackets`, carrying `remaining`, `lastCap` and the
accumulated `(tax, breakdown)` exactly as the `for` loop does.  The `breakdown`
is returned in push order. -/
def applyBracketsLoop (brackets : List Bracket) (remaining lastCap : ℚ) :
    ℚ × List BreakdownEntry :=
  match brackets with
  | [] => (0, [])
  | bracket :: rest =>
    if remaining ≤ 0 then (0, [])
    else
      match bracket.upTo with
      | none =>
        -- cap = Infinity: bandSize = remaining, lastCap unchanged
        let amountTaxed := min remaining remaining
        let taxForBracket := amountTaxed * bracket.rate
        let (t, bd) := applyBracketsLoop rest (remaining - amountTaxed) lastCap
        (taxForBracket + t,
          { bracketUpTo := none, rate := bracket.rate,
            amountTaxed := round2 amountTaxed,
            taxForBracket := round2 taxForBracket } :: bd)
      | some cap =>
        let bandSize := max 0 (cap - lastCap)
        let amountTaxed := min remaining bandSize
        let taxForBracket := amountTaxed * bracket.rate
        let (t, bd) := applyBracketsLoop rest (remaining - amountTaxed) cap
        (taxForBracket + t,
          { bracketUpTo := some cap, rate := bracket.rate,
            amountTaxed := round2 amountTaxed,
            taxForBracket := round2 taxForBracket } :: bd)

/-- `applyBrackets(taxable, brackets)`: returns `{ tax: round2(tax), breakdown }`. -/
def applyBrackets (taxable : ℚ) (brackets : List Bracket) :
    ℚ × List BreakdownEntry :=
  let (tax, breakdown) := applyBracketsLoop brackets taxable 0
  (round2 tax, breakdown)

/-- `calcStateTax`.  The compiled-JSON lookup performed by `loadStateRules`
(a data file, keyed by normalized state) is injected as the `lookup`
parameter; a `none` result corresponds to `loadStateRules` returning `null`.
Thrown `Error`s are modelled as `Except.error` with the source's message. -/
def calcStateTax (lookup : String → Option StateTaxRules)
    (input : StateTaxInput) : Except String StateTaxResult :=
  let state := normalizeState input.state
  let year := input.year
  let filingStatus := input.filingStatus
  let taxableIncome := clamp0 input.taxableIncome
  if state ∈ NO_INCOME_TAX_STATES then
    .ok { state := state, year := year, hasIncomeTax := false,
          taxableBase := round2 taxableIncome, tax := 0, effectiveRate := 0,
          breakdown := [], note := some "No state income tax" }
  else
    match lookup state with
    | none =>
      .error ("State rules not available for " ++ state ++ " (" ++ toString year ++ ")")
    | some rules =>
      if rules.hasIncomeTax = false then
        .ok { state := state, year := year, hasIncomeTax := false,
              taxableBase := round2 taxableIncome, tax := 0, effectiveRate := 0,
              breakdown := [], note := rules.notes }
      else
        let standardDeduction := (rules.standardDeduction filingStatus).getD 0
        let personalExemption := (rules.personalExemption filingStatus).getD 0
        let taxableBase := clamp0 (taxableIncome - standardDeduction - personalExemption)
        match rules.taxType, rules.flatRate with
        | some .flat, some rate =>
          let tax := round2 (taxableBase * rate)
          .ok { state := state, year := year, hasIncomeTax := true,
                taxableBase := round2 taxableBase, tax := tax,
                effectiveRate := if taxableBase > 0 then round2 (tax / taxableBase) else 0,
                breakdown := [{ bracketUpTo := none, rate := rate,
                                amountTaxed := round2 taxableBase, taxForBracket := tax }],
                note := rules.notes }
        | _, _ =>
          match rules.brackets filingStatus with
          | none =>
            .error ("Missing brackets/flatRate for " ++ state ++ " (" ++ toString year ++ ")")
          | some [] =>
            .error ("Missing brackets/flatRate for " ++ state ++ " (" ++ toString year ++ ")")
          | some brackets =>
            let (tax, breakdown) := applyBrackets taxableBase brackets
            .ok { state := state, year := year, hasIncomeTax := true,
                  taxableBase := round2 taxableBase, tax := tax,
                  effectiveRate := if taxableBase > 0 then round2 (tax / taxableBase) else 0,
                  breakdown := breakdown, note := rules.notes }

/-- `StateTaxFromTaxableBaseInput`. -/
structure StateTaxFromTaxableBaseInput where
  year : ℤ
  state : String
  filingStatus : FilingStatus
  taxableBase : ℚ

/-- The progressive `for` loop of `calcStateTaxFromTaxableBase`, carrying
`prev`.  `continue` with `prev` update on an empty slice, `break` on a `null`
cap or once `taxableBase ≤ upTo`, exactly as in the source. -/
def fromBaseLoop (taxableBase : ℚ) (brackets : List Bracket) (prev : ℚ) :
    ℚ × List BreakdownEntry :=
  match brackets with
  | [] => (0, [])
  | b :: rest =>
    let sliceTop := match b.upTo with | none => taxableBase | some u => min taxableBase u
    let slice := clamp0 (sliceTop - prev)
    if slice ≤ 0 then
      fromBaseLoop taxableBase rest (match b.upTo with | none => taxableBase | some u => u)
    else
      let t := slice * b.rate
      let entry : BreakdownEntry :=
        { bracketUpTo := b.upTo, rate := b.rate,
          amountTaxed := round2 slice, taxForBracket := round2 t }
      match b.upTo with
      | none => (t, [entry])
      | some u =>
        if taxableBase ≤ u then (t, [entry])
        else
          let (t2, bd) := fromBaseLoop taxableBase rest u
          (t + t2, entry :: bd)

/-- `calcStateTaxFromTaxableBase` (the "new pipeline" entry point, state tax
from a base already net of state deductions/exemptions). -/
def calcStateTaxFromTaxableBase (lookup : String → Option StateTaxRules)
    (input : StateTaxFromTaxableBaseInput) : Except String StateTaxResult :=
  let state := normalizeState input.state
  let year := input.year
  let filingStatus := input.filingStatus
  let taxableBase := clamp0 input.taxableBase
  if state ∈ NO_INCOME_TAX_STATES then
    .ok { state := state, year := year, hasIncomeTax := false,
          taxableBase := round2 taxableBase, tax := 0, effectiveRate := 0,
          breakdown := [], note := some "No state income tax" }
  else
    match lookup state with
    | none =>
      .error ("State rules not available for " ++ state ++ " (" ++ toString year ++ ")")
    | some rules =>
      if rules.hasIncomeTax = false then
        .ok { state := state, year := year, hasIncomeTax := false,
              taxableBase := round2 taxableBase, tax := 0, effectiveRate := 0,
              breakdown := [], note := rules.notes }
      else
        match rules.taxType, rules.flatRate with
        | some .flat, some rate =>
          let tax := round2 (taxableBase * rate)
          .ok { state := state, year := year, hasIncomeTax := true,
                taxableBase := round2 taxableBase, tax := tax,
                effectiveRate := if taxableBase > 0 then round2 (tax / taxableBase) else 0,
                breakdown := [{ bracketUpTo := none, rate := rate,
                                amountTaxed := round2 taxableBase,
                                taxForBracket := round2 tax }],
                note := rules.notes }
        | _, _ =>
          -- brackets = rules.brackets?.[filingStatus] ?? rules.brackets?.single ?? []
          let brackets :=
            match rules.brackets filingStatus with
            | some bs => bs
            | none => (rules.brackets .single).getD []
          let (taxAcc, breakdown) := fromBaseLoop taxableBase brackets 0
          let tax := round2 taxAcc
          .ok { state := state, year := year, hasIncomeTax := true,
                taxableBase := round2 taxableBase, tax := tax,
                effectiveRate := if taxableBase > 0 then round2 (tax / taxableBase) else 0,
                breakdown := breakdown, note := rules.notes }

end StateTaxEngine

namespace StateBaseCalc


/-! ## `src/lib/tax/stateBaseCalc.ts`

The rule-expression evaluator and the federalAGI → stateAGI →
taxableStateIncome pipeline.  JS `warnings`/`missingInputs` arrays that the
source pushes into are modelled as lists returned by each evaluation and
concatenated in push order. -/

open StateTaxEngine (FilingStatus)

/-- The comparison operator strings `">" | ">=" | "<" | "<=" | "==" | "!="`. -/
inductive CmpOp where
  | gt | ge | lt | le | eq | ne
deriving DecidableEq, Repr

mutual
/-- The expression AST (`Expr`).  `unknown op` stands for any node whose `op`
string is none of the supported ones (the evaluator's `default:` branch —
the AST is a dynamic JSON tree in the source, so unknown kinds can occur).
`compare`, `emin`, `emax` and `ecase` embed the source's `">"/..."`, `min`,
`max` and `case` variants. -/
inductive Expr where
  | constant (value : ℚ)
  | value (path : String)
  | compare (op : CmpOp) (path : String) (value : ℚ)
  | mul (args : ExprList)
  | emin (args : ExprList)
  | emax (args : ExprList)
  | ecase (cases : CaseList) (dflt : Expr)
  | unknown (op : String)

/-- `Expr[]` (argument lists of `mul`/`min`/`max`). -/
inductive ExprList where
  | nil
  | cons (head : Expr) (tail : ExprList)

/-- `Array<{ when: Expr; then: Expr }>` of a `case` node. -/
inductive CaseList where
  | nil
  | cons (whenE thenE : Expr) (tail : CaseList)
end

/-- Runtime values flowing through the evaluator: JS numbers (finite, NaN,
±Infinity), booleans and strings (the `filingStatus` context field). -/
inductive Val where
  | num (q : ℚ)
  | boolv (b : Bool)
  | str (s : String)
  | posInf
  | negInf
  | nan
deriving DecidableEq, Repr

/-- `toNum`: `Number.isFinite(Number(v)) ? Number(v) : 0`.  `Number` of a
non-empty string is modelled as NaN (hence 0): the only strings reaching the
evaluator are filing-status names, which are not numeric. -/
def toNum : Val → ℚ
  | .num q => q
  | .boolv b => if b then 1 else 0
  | .str _ => 0
  | .posInf => 0
  | .negInf => 0
  | .nan => 0

/-- `toBool`: JS `Boolean(v)` truthiness. -/
def toBool : Val → Bool
  | .num q => decide (q ≠ 0)
  | .boolv b => b
  | .str s => decide (s ≠ "")
  | .posInf => true
  | .negInf => true
  | .nan => false

/-- `Number(v || 0)` applied to an optional looked-up value (`undefined`,
falsy values and NaN collapse to 0; `Number` of a boolean is 0/1; `Number` of
a non-empty string is modelled as NaN). -/
def numOfLookup : Option Val → Val
  | none => .num 0
  | some (.num q) => .num q
  | some (.boolv b) => .num (if b then 1 else 0)
  | some (.str s) => if s = "" then .num 0 else .nan
  | some .posInf => .posInf
  | some .negInf => .negInf
  | some .nan => .num 0

/-- Numeric comparison of the coerced left operand against a constant,
with IEEE semantics for NaN (every comparison false except `!=`) and ±∞. -/
def cmpEval (op : CmpOp) (l : Val) (r : ℚ) : Bool :=
  match l with
  | .num a =>
    match op with
    | .gt => decide (a > r)
    | .ge => decide (a ≥ r)
    | .lt => decide (a < r)
    | .le => decide (a ≤ r)
    | .eq => decide (a = r)
    | .ne => decide (a ≠ r)
  | .posInf =>
    match op with
    | .gt | .ge | .ne => true
    | _ => false
  | .negInf =>
    match op with
    | .lt | .le | .ne => true
    | _ => false
  | _ =>
    -- NaN left operand (also strings/booleans never produced by numOfLookup here)
    match op with
    | .ne => true
    | _ => false

/-- `EvalContext`. -/
structure EvalContext where
  year : ℤ
  state : String
  filingStatus : FilingStatus
  input : String → Option Val
  federalAGI : ℚ
  federalTaxableIncome : Option ℚ := none
  stateAGI : Option ℚ := none

/-- The JSON string of a filing status. -/
def filingStatusStr : FilingStatus → String
  | .single => "single"
  | .mfj => "mfj"
  | .mfs => "mfs"
  | .hoh => "hoh"

/-- `getPath`: reserved computed values first, then the `input` facts map.
`none` is JS `undefined`. -/
def getPath (path : String) (ctx : EvalContext) : Option Val :=
  let p := StateTaxEngine.jsTrim path
  if p = "" then none
  else if p = "federalAGI" then some (.num ctx.federalAGI)
  else if p = "federalTaxableIncome" then ctx.federalTaxableIncome.map .num
  else if p = "stateAGI" then ctx.stateAGI.map .num
  else if p = "filingStatus" then some (.str (filingStatusStr ctx.filingStatus))
  else ctx.input p

/-- Result of one expression evaluation: the value plus the warnings and
missing-input entries pushed during it, in push order. -/
structure EvalOut where
  v : Val
  warnings : List String
  missing : List String
deriving DecidableEq, Repr

/-- `Math.min(...nums)`: `Infinity` on an empty argument list. -/
def jsMin (nums : List ℚ) : Val :=
  match nums with
  | [] => .posInf
  | n :: rest => .num (rest.foldl min n)

/-- `Math.max(...nums)`: `-Infinity` on an empty argument list. -/
def jsMax (nums : List ℚ) : Val :=
  match nums with
  | [] => .negInf
  | n :: rest => .num (rest.foldl max n)

mutual
/-- `evalExpr`. -/
def evalExpr (e : Expr) (ctx : EvalContext) : EvalOut :=
  match e with
  | .constant v => ⟨.num v, [], []⟩
  | .value path =>
    match getPath path ctx with
    | none => ⟨.num 0, [], [path]⟩
    | some v => ⟨numOfLookup (some v), [], []⟩
  | .compare op path value =>
    ⟨.boolv (cmpEval op (numOfLookup (getPath path ctx)) value), [], []⟩
  | .mul args =>
    let (nums, w, m) := evalArgs args ctx
    ⟨.num (nums.foldl (· * ·) 1), w, m⟩
  | .emin args =>
    let (nums, w, m) := evalArgs args ctx
    ⟨jsMin nums, w, m⟩
  | .emax args =>
    let (nums, w, m) := evalArgs args ctx
    ⟨jsMax nums, w, m⟩
  | .ecase cases dflt => evalCases cases dflt ctx
  | .unknown op => ⟨.num 0, ["unsupported_op:" ++ op], []⟩
termination_by sizeOf e

/-- `expr.args.map((a) => toNum(evalExpr(a, ...)))`. -/
def evalArgs (args : ExprList) (ctx : EvalContext) :
    List ℚ × List String × List String :=
  match args with
  | .nil => ([], [], [])
  | .cons h t =>
    let r := evalExpr h ctx
    let (ns, w, m) := evalArgs t ctx
    (toNum r.v :: ns, r.warnings ++ w, r.missing ++ m)
termination_by sizeOf args

/-- The `case` branch scan: first truthy `when` wins, otherwise `default`. -/
def evalCases (cases : CaseList) (dflt : Expr) (ctx : EvalContext) : EvalOut :=
  match cases with
  | .nil => evalExpr dflt ctx
  | .cons whenE thenE rest =>
    let rw := evalExpr whenE ctx
    if toBool rw.v then
      let rt := evalExpr thenE ctx
      ⟨rt.v, rw.warnings ++ rt.warnings, rw.missing ++ rt.missing⟩
    else
      let rr := evalCases rest dflt ctx
      ⟨rr.v, rw.warnings ++ rr.warnings, rw.missing ++ rr.missing⟩
termination_by sizeOf cases + sizeOf dflt
end

/-- `clamp0` of `stateBaseCalc.ts`: `Number.isFinite(n) && n > 0 ? n : 0`
(on finite rationals: positive or zero). -/
def clamp0 (q : ℚ) : ℚ := if 0 < q then q else 0

/-- `kind` of a `Rule`. -/
inductive RuleKind where
  | addition | subtraction | deduction | credit
deriving DecidableEq, Repr

/-- `status` of a `Rule`. -/
inductive RuleStatus where
  | ok | needs_detail
deriving DecidableEq, Repr

/-- `Rule` (the fields the engine reads; `affects` and `reference` are never
consulted by the computation). -/
structure Rule where
  id : String
  kind : RuleKind
  description : Option String := none
  status : Option RuleStatus := none
  enabled : Option Bool := none
  when : Option Expr := none
  amount : Option Expr := none
  requires : List String := []

/-- Result of `evalRule` together with its pushed warnings/missing inputs. -/
structure RuleOut where
  applied : Bool
  amount : ℚ
  warnings : List String
  missing : List String

/-- `evalRule`. -/
def evalRule (rule : Rule) (ctx : EvalContext) : RuleOut :=
  if rule.enabled = some false then ⟨false, 0, [], []⟩
  else if rule.status = some .needs_detail then
    ⟨false, 0, ["rule_needs_detail:" ++ rule.id], []⟩
  else
    let reqMissing := rule.requires.filter fun req => (getPath req ctx).isNone
    match rule.when with
    | none =>
      -- `when` defaults to true
      match rule.amount with
      | none => ⟨false, 0, [], reqMissing⟩
      | some aE =>
        let r := evalExpr aE ctx
        ⟨true, clamp0 (toNum r.v), r.warnings, reqMissing ++ r.missing⟩
    | some wE =>
      let rw := evalExpr wE ctx
      if toBool rw.v then
        match rule.amount with
        | none => ⟨false, 0, rw.warnings, reqMissing ++ rw.missing⟩
        | some aE =>
          let r := evalExpr aE ctx
          ⟨true, clamp0 (toNum r.v), rw.warnings ++ r.warnings,
            reqMissing ++ rw.missing ++ r.missing⟩
      else ⟨false, 0, rw.warnings, reqMissing ++ rw.missing⟩

/-- `startingPoint.type`. -/
inductive StartingPointType where
  | federalAGI | federalTaxableIncome | stateDefined
deriving DecidableEq, Repr

/-- `standardDeduction`/`personalExemption` blocks of the compiled rules. -/
structure DeductionSpec where
  dflt : Option ℚ := none
  byStatus : FilingStatus → Option ℚ := fun _ => none

/-- `StateBaseRules` (the fields the engine reads).  The optional
`adjustments`/`deductions` wrappers are collapsed: an absent wrapper behaves
exactly like empty rule lists / absent amounts (`?? []`, `?? 0`). -/
structure StateBaseRules where
  startingPointType : Option StartingPointType := none
  additions : List Rule := []
  subtractions : List Rule := []
  standardDeduction : DeductionSpec := {}
  personalExemption : DeductionSpec := {}
  itemizedRules : List Rule := []

/-- One entry of the `applied` audit list. -/
structure AppliedEntry where
  id : String
  kind : RuleKind
  amount : ℚ
  description : Option String

/-- `ApplyResult`. -/
structure ApplyResult where
  value : ℚ
  applied : List AppliedEntry
  warnings : List String
  missingInputs : List String

/-- The context argument of `applyStateConformity`
(`Omit<EvalContext, "federalAGI" | "stateAGI">`). -/
structure ConformityCtx where
  year : ℤ
  state : String
  filingStatus : FilingStatus
  input : String → Option Val
  federalTaxableIncome : Option ℚ := none

/-- Accumulator step of the rule loops: `(total, applied, warnings, missing)`.
`entryOf` builds the pushed audit entry from the rule and its amount (the
conformity loops push `rule.kind` and `±amount`; the itemized loop pushes a
literal `"deduction"` kind). -/
def ruleFoldStep (evalCtx : EvalContext) (entryOf : Rule → ℚ → AppliedEntry)
    (acc : ℚ × List AppliedEntry × List String × List String) (rule : Rule) :
    ℚ × List AppliedEntry × List String × List String :=
  let (total, applied, warns, miss) := acc
  let r := evalRule rule evalCtx
  if r.applied then
    (total + r.amount, applied ++ [entryOf rule r.amount],
      warns ++ r.warnings, miss ++ r.missing)
  else
    (total, applied, warns ++ r.warnings, miss ++ r.missing)

/-- `applyStateConformity`. -/
def applyStateConformity (federalAGI : ℚ) (stateRules : StateBaseRules)
    (ctx : ConformityCtx) : ApplyResult :=
  let baseType := stateRules.startingPointType.getD .federalAGI
  let baseAndWarn : ℚ × List String :=
    match baseType with
    | .federalAGI => (federalAGI, [])
    | .federalTaxableIncome =>
      match ctx.federalTaxableIncome with
      | none => (federalAGI, ["startingPoint.federalTaxableIncome_missing_using_federalAGI"])
      | some fti => (fti, [])
    | .stateDefined => (federalAGI, ["startingPoint.stateDefined_fallback_to_federalAGI"])
  let base := baseAndWarn.1
  let evalCtx : EvalContext :=
    { year := ctx.year, state := ctx.state, filingStatus := ctx.filingStatus,
      input := ctx.input, federalAGI := federalAGI,
      federalTaxableIncome := ctx.federalTaxableIncome, stateAGI := some base }
  let addAcc := stateRules.additions.foldl
    (ruleFoldStep evalCtx fun rule amt =>
      { id := rule.id, kind := rule.kind, amount := amt,
        description := rule.description })
    (0, [], baseAndWarn.2, [])
  let totalAdd := addAcc.1
  -- update stateAGI so subtractions that depend on it can see it
  let evalCtx2 := { evalCtx with stateAGI := some (base + totalAdd) }
  let subAcc := stateRules.subtractions.foldl
    (ruleFoldStep evalCtx2 fun rule amt =>
      { id := rule.id, kind := rule.kind, amount := -amt,
        description := rule.description })
    (0, addAcc.2.1, addAcc.2.2.1, addAcc.2.2.2)
  let totalSub := subAcc.1
  { value := clamp0 (base + totalAdd - totalSub),
    applied := subAcc.2.1,
    warnings := subAcc.2.2.1.eraseDups,
    missingInputs := subAcc.2.2.2.eraseDups }

/-- The context argument of `applyStateDeductions`. -/
structure DeductionsCtx where
  year : ℤ
  state : String
  filingStatus : FilingStatus
  input : String → Option Val
  federalAGI : ℚ
  federalTaxableIncome : Option ℚ := none
  useItemized : Bool := false

/-- `applyStateDeductions`. -/
def applyStateDeductions (stateAGI : ℚ) (stateRules : StateBaseRules)
    (ctx : DeductionsCtx) : ApplyResult :=
  let std := (stateRules.standardDeduction.byStatus ctx.filingStatus).getD
    (stateRules.standardDeduction.dflt.getD 0)
  let pe := (stateRules.personalExemption.byStatus ctx.filingStatus).getD
    (stateRules.personalExemption.dflt.getD 0)
  let deductionTotal0 := std + pe
  let applied0 : List AppliedEntry :=
    (if std ≠ 0 then
      [{ id := "STD_DEDUCTION", kind := .deduction, amount := std,
         description := some "Standard deduction" }] else []) ++
    (if pe ≠ 0 then
      [{ id := "PERSONAL_EXEMPTION", kind := .deduction, amount := pe,
         description := some "Personal exemption" }] else [])
  let itemAcc :=
    if ctx.useItemized then
      let evalCtx : EvalContext :=
        { year := ctx.year, state := ctx.state, filingStatus := ctx.filingStatus,
          input := ctx.input, federalAGI := ctx.federalAGI,
          federalTaxableIncome := ctx.federalTaxableIncome,
          stateAGI := some stateAGI }
      stateRules.itemizedRules.foldl
        (ruleFoldStep evalCtx fun rule amt =>
          { id := rule.id, kind := .deduction, amount := amt,
            description := rule.description })
        (0, applied0, [], [])
    else (0, applied0, [], [])
  let deductionTotal := deductionTotal0 + itemAcc.1
  { value := clamp0 (stateAGI - deductionTotal),
    applied := itemAcc.2.1,
    warnings := itemAcc.2.2.1.eraseDups,
    missingInputs := itemAcc.2.2.2.eraseDups }

end StateBaseCalc

namespace EstimatedQuarterly

/-! ## `src/routes/estimatedQuartely.ts` (computation helpers)

`clamp0`/`round2` are the same definitions as in `stateTaxEngine.ts` and are
shared (top of this file). -/

open StateTaxEngine (FilingStatus Bracket)

/-- The bracket `for` loop of `calcTaxFromBrackets`, carrying `prev`
(`prev = upTo; if (taxableIncome <= upTo) break`). -/
def calcTaxLoop (taxableIncome : ℚ) (brackets : List Bracket) (prev : ℚ) : ℚ :=
  match brackets with
  | [] => 0
  | b :: rest =>
    match b.upTo with
    | none => clamp0 (taxableIncome - prev) * b.rate
    | some u =>
      let amount := clamp0 (min taxableIncome u - prev)
      if taxableIncome ≤ u then amount * b.rate
      else amount * b.rate + calcTaxLoop taxableIncome rest u

/-- `calcTaxFromBrackets`.  The federal bracket table it reads from
`data/federal/2026.json` (a data file) is injected: `none` models an absent
table (`if (!brackets?.length) return 0`). -/
def calcTaxFromBrackets (brackets : Option (List Bracket)) (taxableIncome : ℚ) : ℚ :=
  match brackets with
  | none => 0
  | some [] => 0
  | some bs => round2 (calcTaxLoop taxableIncome bs 0)

/-- Inputs of `buildPenaltyRiskLite` apart from the wall clock. -/
structure PenaltyRiskInput where
  safeHarborRequiredAnnual : ℚ
  withholdingAnnual : ℚ
  paymentsMadeYtdAnnual : ℚ
  usePerQuarterPayments : Bool
  paymentsMadeQ1 : ℚ
  paymentsMadeQ2 : ℚ
  paymentsMadeQ3 : ℚ
  paymentsMadeQ4 : ℚ

/-- One row of `underpaymentByQuarter`. -/
structure QuarterRow where
  label : String
  requiredByDueDate : ℚ
  paidByDueDate : ℚ
  underpayment : ℚ
deriving DecidableEq, Repr

/-- The result of `buildPenaltyRiskLite` (the `notes` strings are omitted). -/
structure PenaltyRiskOut where
  safeHarborRequiredAnnual : ℚ
  safeHarborRequiredToDate : ℚ
  paidToDate : ℚ
  protectedBySafeHarbor : Bool
  quartersPassed : ℤ
  quartersLeft : ℤ
  underpaymentByQuarter : List QuarterRow
deriving DecidableEq, Repr

/-- `buildPenaltyRiskLite`.  The only impure ingredient of the source, the
number of quarterly due dates already past the wall clock
(`quartersPassedByNow(...).passed`), is injected as `passedRaw`; the function
clamps it to `[0, 4]` exactly as the source does. -/
def buildPenaltyRiskLite (passedRaw : ℤ) (p : PenaltyRiskInput) : PenaltyRiskOut :=
  let passed : ℤ := min 4 (max 0 passedRaw)
  let requiredCum : Nat → ℚ := fun i =>
    match i with
    | 1 => round2 (p.safeHarborRequiredAnnual * 0.25)
    | 2 => round2 (p.safeHarborRequiredAnnual * 0.50)
    | 3 => round2 (p.safeHarborRequiredAnnual * 0.75)
    | 4 => round2 (p.safeHarborRequiredAnnual * 1.00)
    | _ => 0
  let withholdingPerQuarter := round2 (clamp0 p.withholdingAnnual / 4)
  let paidQ : Nat → ℚ := fun i =>
    if p.usePerQuarterPayments then
      match i with
      | 1 => clamp0 p.paymentsMadeQ1
      | 2 => clamp0 p.paymentsMadeQ2
      | 3 => clamp0 p.paymentsMadeQ3
      | 4 => clamp0 p.paymentsMadeQ4
      | _ => 0
    else
      -- YTD allocated evenly across quarters already due
      let ytd := clamp0 p.paymentsMadeYtdAnnual
      let per := if passed > 0 then round2 (ytd / (passed : ℚ)) else 0
      if (i : ℤ) ≤ passed then per else 0
  let cumPaidByQuarter : Nat → ℚ := fun k =>
    round2 ((List.range k).foldl
      (fun sum j => sum + withholdingPerQuarter + paidQ (j + 1)) 0)
  let underpaymentByQuarter : List QuarterRow :=
    [1, 2, 3, 4].map fun k =>
      { label := "Q" ++ toString k,
        requiredByDueDate := requiredCum k,
        paidByDueDate := cumPaidByQuarter k,
        underpayment := round2 (clamp0 (requiredCum k - cumPaidByQuarter k)) }
  let requiredToDate : ℚ :=
    if passed ≤ 0 then 0
    else ((underpaymentByQuarter.get? (passed - 1).toNat).map
      (·.requiredByDueDate)).getD 0
  let paidToDate : ℚ :=
    if passed ≤ 0 then round2 (withholdingPerQuarter * 0)
    else ((underpaymentByQuarter.get? (passed - 1).toNat).map
      (·.paidByDueDate)).getD 0
  let protectedBySafeHarbor : Bool :=
    if passed ≤ 0 then true else decide (paidToDate + 0.01 ≥ requiredToDate)
  { safeHarborRequiredAnnual := round2 p.safeHarborRequiredAnnual,
    safeHarborRequiredToDate := round2 requiredToDate,
    paidToDate := round2 paidToDate,
    protectedBySafeHarbor := protectedBySafeHarbor,
    quartersPassed := passed,
    quartersLeft := 4 - passed,
    underpaymentByQuarter := underpaymentByQuarter }

end EstimatedQuarterly

namespace FederalTaxEngine

/-! ## `src/lib/tax/federalTaxEngine.ts` -/

open StateTaxEngine (Bracket)

/-- The bracket `for` loop of `calcFederalIncomeTax` (the shared
flat/progressive slice accumulation; `prev = cap; if (taxableIncome <= cap)
break`). -/
def bracketLoop (taxableIncome : ℚ) (brackets : List Bracket) (prev : ℚ) : ℚ :=
  match brackets with
  | [] => 0
  | b :: rest =>
    match b.upTo with
    | none => clamp0 (taxableIncome - prev) * b.rate
    | some cap =>
      let band := clamp0 (min taxableIncome cap - prev)
      if taxableIncome ≤ cap then band * b.rate
      else band * b.rate + bracketLoop taxableIncome rest cap

end FederalTaxEngine

namespace SeTax

/-! ## `src/routes/seTax.ts` — `computeSelfEmploymentTax`

The SE-tax constants block read from `data/federal_constants.json` (a data
file, keyed by tax year) is injected as a `SeTaxConstants` argument.  This
file's `round2` adds `Number.EPSILON` before rounding (`round2eps`). -/

open StateTaxEngine (FilingStatus)
open StateBaseCalc (filingStatusStr)

/-- The constants block `federalConstants[year].seTax`. -/
structure SeTaxConstants where
  ssWageBase : ℚ
  seNetEarningsFactor : ℚ
  ssRate : ℚ
  medicareRate : ℚ
  additionalMedicareRate : ℚ
  additionalMedicareThreshold : FilingStatus → Option ℚ

/-- `netEarnings = netProfit * seNetEarningsFactor`. -/
def netEarnings (C : SeTaxConstants) (netProfit : ℚ) : ℚ :=
  netProfit * C.seNetEarningsFactor

/-- `ssCapRemaining = Math.max(0, ssWageBase - w2Wages)`. -/
def ssCapRemaining (C : SeTaxConstants) (w2Wages : ℚ) : ℚ :=
  max 0 (C.ssWageBase - w2Wages)

/-- `ssTaxable = Math.max(0, Math.min(netEarnings, ssCapRemaining))`. -/
def ssTaxable (C : SeTaxConstants) (netProfit w2Wages : ℚ) : ℚ :=
  max 0 (min (netEarnings C netProfit) (ssCapRemaining C w2Wages))

/-- `ssTax = ssTaxable * ssRate`. -/
def ssTax (C : SeTaxConstants) (netProfit w2Wages : ℚ) : ℚ :=
  ssTaxable C netProfit w2Wages * C.ssRate

/-- `medicareTax = netEarnings * medicareRate` (no cap). -/
def medicareTax (C : SeTaxConstants) (netProfit : ℚ) : ℚ :=
  netEarnings C netProfit * C.medicareRate

/-- `addlTaxable = Math.max(0, w2Wages + netEarnings - threshold)`;
`additionalMedicareTax = addlTaxable * additionalMedicareRate`. -/
def additionalMedicareTax (C : SeTaxConstants) (netProfit w2Wages threshold : ℚ) : ℚ :=
  max 0 (w2Wages + netEarnings C netProfit - threshold) * C.additionalMedicareRate

/-- `seTax = ssTax + medicareTax` (the additional Medicare tax is kept apart). -/
def seTaxSum (C : SeTaxConstants) (netProfit w2Wages : ℚ) : ℚ :=
  ssTax C netProfit w2Wages + medicareTax C netProfit

/-- `deductibleHalf = seTax * 0.5`. -/
def deductibleHalf (C : SeTaxConstants) (netProfit w2Wages : ℚ) : ℚ :=
  seTaxSum C netProfit w2Wages * 0.5

/-- The record returned by `computeSelfEmploymentTax` (numeric fields). -/
structure SeTaxResult where
  netProfit : ℚ
  w2Wages : ℚ
  netEarnings : ℚ
  ssWageBase : ℚ
  ssCapRemaining : ℚ
  ssTaxable : ℚ
  ssTax : ℚ
  medicareTax : ℚ
  seTax : ℚ
  deductibleHalf : ℚ
  additionalMedicareThreshold : ℚ
  additionalMedicareTax : ℚ
  total : ℚ
deriving DecidableEq, Repr

/-- `computeSelfEmploymentTax`.  A missing threshold for the filing status is
the thrown `Error` of the source. -/
def computeSelfEmploymentTax (C : SeTaxConstants)
    (netProfit w2Wages : ℚ) (filingStatus : FilingStatus) :
    Except String SeTaxResult :=
  match C.additionalMedicareThreshold filingStatus with
  | none =>
    .error ("Missing additionalMedicareThreshold for " ++ filingStatusStr filingStatus)
  | some threshold =>
    .ok { netProfit := round2eps netProfit,
          w2Wages := round2eps w2Wages,
          netEarnings := round2eps (netEarnings C netProfit),
          ssWageBase := C.ssWageBase,
          ssCapRemaining := round2eps (ssCapRemaining C w2Wages),
          ssTaxable := round2eps (ssTaxable C netProfit w2Wages),
          ssTax := round2eps (ssTax C netProfit w2Wages),
          medicareTax := round2eps (medicareTax C netProfit),
          seTax := round2eps (seTaxSum C netProfit w2Wages),
          deductibleHalf := round2eps (deductibleHalf C netProfit w2Wages),
          additionalMedicareThreshold := threshold,
          additionalMedicareTax :=
            round2eps (additionalMedicareTax C netProfit w2Wages threshold),
          total := round2eps (seTaxSum C netProfit w2Wages +
            additionalMedicareTax C netProfit w2Wages threshold) }

end SeTax

namespace SimulationService

/-! ## `src/services/simulationService.ts`

The two data environments the service loads (`loadStateRules` over
`compiled_2026_all_states.json` and `loadStateBaseRules` over
`stateBaseRules.full.computed.2026.json`) are injected as a `Cfg`;
`loadStateBaseRules` is assumed to succeed (its thrown errors concern a
missing data file, not the computation under specification). -/

open StateTaxEngine
open StateBaseCalc (StateBaseRules Val applyStateConformity applyStateDeductions)

/-- `CalcInput` (year is passed separately, as `compareResultsNew` receives it). -/
structure CalcInput where
  w2Salary : ℚ
  income1099 : ℚ
  state : String
  expenses : ℚ

/-- The injected data environment. -/
structure Cfg where
  lookup : String → Option StateTaxRules
  baseRules : StateBaseRules

/-- `FEDERAL_BRACKETS_2026_SINGLE` (placeholder table in the source). -/
def FEDERAL_BRACKETS_2026_SINGLE : List Bracket :=
  [ { upTo := some 11600, rate := 0.1 },
    { upTo := some 47150, rate := 0.12 },
    { upTo := some 100525, rate := 0.22 },
    { upTo := some 191950, rate := 0.24 },
    { upTo := some 243725, rate := 0.32 },
    { upTo := some 609350, rate := 0.35 },
    { upTo := none, rate := 0.37 } ]

/-- The `for` loop of `calcProgressiveTax`, carrying `remaining` and
`lastCap` (`lastCap` advances only on finite caps; an infinite cap consumes
all of `remaining`). -/
def calcProgressiveTaxLoop (brackets : List Bracket) (remaining lastCap : ℚ) : ℚ :=
  match brackets with
  | [] => 0
  | b :: rest =>
    if remaining ≤ 0 then 0
    else
      match b.upTo with
      | none =>
        let amt := min remaining remaining
        amt * b.rate + calcProgressiveTaxLoop rest (remaining - amt) lastCap
      | some cap =>
        let bandSize := max 0 (cap - lastCap)
        let amt := min remaining bandSize
        amt * b.rate + calcProgressiveTaxLoop rest (remaining - amt) cap

/-- `calcProgressiveTax(taxable, brackets)`. -/
def calcProgressiveTax (taxable : ℚ) (brackets : List Bracket) : ℚ :=
  calcProgressiveTaxLoop brackets (max 0 taxable) 0

/-- `calcFederalTaxFromTaxableIncome_single_placeholder`. -/
def calcFederalTaxFromTaxableIncome_single_placeholder (taxableIncome : ℚ) : ℚ :=
  calcProgressiveTax (max 0 taxableIncome) FEDERAL_BRACKETS_2026_SINGLE

/-- `calcFederalTaxW2_single_placeholder`. -/
def calcFederalTaxW2_single_placeholder (w2Salary standardDeduction : ℚ) : ℚ :=
  calcFederalTaxFromTaxableIncome_single_placeholder (max 0 (w2Salary - standardDeduction))

/-- `calcFicaTax_placeholder`. -/
def calcFicaTax_placeholder (w2Salary : ℚ) : ℚ :=
  min w2Salary 168600 * 0.062 + w2Salary * 0.0145 + max 0 (w2Salary - 200000) * 0.009

/-- Social-Security part of `calcSeTax_placeholder`:
`Math.min(taxable, ssWageBase) * 0.124` with `taxable = max(0, netProfit) * 0.9235`. -/
def seTaxPlaceholderSs (netProfit : ℚ) : ℚ :=
  min (max 0 netProfit * 0.9235) 168600 * 0.124

/-- Medicare part of `calcSeTax_placeholder`: `taxable * 0.029`. -/
def seTaxPlaceholderMed (netProfit : ℚ) : ℚ :=
  max 0 netProfit * 0.9235 * 0.029

/-- Additional-Medicare part of `calcSeTax_placeholder`:
`Math.max(0, taxable - 200000) * 0.009`. -/
def seTaxPlaceholderAdd (netProfit : ℚ) : ℚ :=
  max 0 (max 0 netProfit * 0.9235 - 200000) * 0.009

/-- `calcSeTax_placeholder`: `ss + med + additional`. -/
def calcSeTax_placeholder (netProfit : ℚ) : ℚ :=
  seTaxPlaceholderSs netProfit + seTaxPlaceholderMed netProfit +
    seTaxPlaceholderAdd netProfit

/-- `halfSeDeduction = seTax / 2` as computed inside `compareResultsNew`:
half of the **total** placeholder SE tax (additional Medicare included). -/
def halfSeDeduction (netProfit : ℚ) : ℚ := calcSeTax_placeholder netProfit / 2

/-- Result of `computeTaxableStateIncome`. -/
structure TaxableStateIncomeOut where
  stateAGI : ℚ
  taxableStateIncome : ℚ
  warnings : List String
  missingInputs : List String

/-- `computeTaxableStateIncome` (with injected `baseRules`). -/
def computeTaxableStateIncome (baseRules : StateBaseRules) (year : ℤ)
    (state : String) (filingStatus : FilingStatus) (federalAGI : ℚ)
    (input : String → Option Val := fun _ => none)
    (useItemized : Bool := false) : TaxableStateIncomeOut :=
  let conformity := applyStateConformity federalAGI baseRules
    { year := year, state := state, filingStatus := filingStatus, input := input }
  let deductions := applyStateDeductions conformity.value baseRules
    { year := year, state := state, filingStatus := filingStatus, input := input,
      federalAGI := federalAGI, useItemized := useItemized }
  { stateAGI := conformity.value,
    taxableStateIncome := deductions.value,
    warnings := conformity.warnings ++ deductions.warnings,
    missingInputs := (conformity.missingInputs ++ deductions.missingInputs).eraseDups }

/-- The `W2` leg of a comparison result. -/
structure W2Out where
  federalTax : ℚ
  stateTax : ℚ
  ficaTax : ℚ
  netIncome : ℚ
  effectiveTaxRate : ℚ
deriving DecidableEq, Repr

/-- The `SE` (1099) leg of a comparison result. -/
structure SEOut where
  federalTax : ℚ
  stateTax : ℚ
  seTax : ℚ
  netIncome : ℚ
  effectiveTaxRate : ℚ
deriving DecidableEq, Repr

/-- The value returned by `compareResultsNew`. -/
structure CompareOut where
  w2 : W2Out
  se : SEOut
  annualDifference : ℚ
  monthlyDifference : ℚ
deriving DecidableEq, Repr

/-- `compareResultsNew`. -/
def compareResultsNew (cfg : Cfg) (inputs : CalcInput) (year : ℤ)
    (standardDeduction : ℚ) : Except String CompareOut := do
  -- W2
  let w2FederalTax := calcFederalTaxW2_single_placeholder inputs.w2Salary standardDeduction
  let w2Fica := calcFicaTax_placeholder inputs.w2Salary
  let w2Taxable := computeTaxableStateIncome cfg.baseRules year inputs.state
    .single inputs.w2Salary
  let w2StateRes ← calcStateTaxFromTaxableBase cfg.lookup
    { year := year, state := inputs.state, filingStatus := .single,
      taxableBase := w2Taxable.taxableStateIncome }
  let w2State := w2StateRes.tax
  let w2Total := w2FederalTax + w2State + w2Fica
  let w2Net := inputs.w2Salary - w2Total
  -- 1099
  let netProfit := max 0 (inputs.income1099 - inputs.expenses)
  let seTax := calcSeTax_placeholder netProfit
  let agi := max 0 (netProfit - halfSeDeduction netProfit)
  let taxableFederal := max 0 (agi - standardDeduction)
  let seFederalTax := calcFederalTaxFromTaxableIncome_single_placeholder taxableFederal
  let seTaxable := computeTaxableStateIncome cfg.baseRules year inputs.state .single agi
  let seStateRes ← calcStateTaxFromTaxableBase cfg.lookup
    { year := year, state := inputs.state, filingStatus := .single,
      taxableBase := seTaxable.taxableStateIncome }
  let seStateTax := seStateRes.tax
  let seTotal := seFederalTax + seStateTax + seTax
  let seNet := inputs.income1099 - inputs.expenses - seTotal
  let annualDifference := seNet - w2Net
  return {
      w2 := { federalTax := w2FederalTax, stateTax := w2State, ficaTax := w2Fica,
              netIncome := w2Net,
              effectiveTaxRate := if inputs.w2Salary > 0 then w2Total / inputs.w2Salary else 0 },
      se := { federalTax := seFederalTax, stateTax := seStateTax, seTax := seTax,
              netIncome := seNet,
              effectiveTaxRate := if netProfit > 0 then seTotal / netProfit else 0 },
      annualDifference := annualDifference,
      monthlyDifference := annualDifference / 12 }

/-- Parameters of `findBreakEven`. -/
structure BreakEvenParams where
  year : ℤ
  w2Salary : ℚ
  state : String
  expenses : ℚ
  standardDeduction : ℚ

/-- The doubling phase of `findBreakEven`: up to 12 iterations, each testing
the current `high` and doubling it when the 1099 net income has not yet
reached the target. -/
def doubleHigh (cfg : Cfg) (p : BreakEvenParams) (targetNet : ℚ) :
    Nat → ℚ → Except String ℚ
  | 0, high => .ok high
  | Nat.succ n, high => do
    let test ← compareResultsNew cfg
      { w2Salary := p.w2Salary, income1099 := high, state := p.state,
        expenses := p.expenses } p.year p.standardDeduction
    if test.se.netIncome ≥ targetNet then .ok high
    else doubleHigh cfg p targetNet n (high * 2)

/-- The 30-iteration bisection phase of `findBreakEven`, carrying
`(low, high, mid)`. -/
def bisectLoop (cfg : Cfg) (p : BreakEvenParams) (targetNet : ℚ) :
    Nat → ℚ × ℚ × ℚ → Except String (ℚ × ℚ × ℚ)
  | 0, s => .ok s
  | Nat.succ n, s => do
    let mid := (s.1 + s.2.1) / 2
    let test ← compareResultsNew cfg
      { w2Salary := p.w2Salary, income1099 := mid, state := p.state,
        expenses := p.expenses } p.year p.standardDeduction
    if test.se.netIncome ≥ targetNet then bisectLoop cfg p targetNet n (s.1, mid, mid)
    else bisectLoop cfg p targetNet n (mid, s.2.1, mid)

/-- `findBreakEven`: fixes the W-2 net income as target, doubles the upper
bound (≤ 12 times), then bisects 30 times and returns the last midpoint. -/
def findBreakEven (cfg : Cfg) (p : BreakEvenParams) : Except String ℚ := do
  let baseline ← compareResultsNew cfg
    { w2Salary := p.w2Salary, income1099 := 0, state := p.state,
      expenses := p.expenses } p.year p.standardDeduction
  let targetNet := baseline.w2.netIncome
  let high0 := max 1 (p.w2Salary * 5)
  let high ← doubleHigh cfg p targetNet 12 high0
  let s ← bisectLoop cfg p targetNet 30 (0, high, 0)
  return s.2.2

end SimulationService

namespace Jx

/-! ## `stateBaseCalc.ts` over IEEE special values

A second model of `stateBaseCalc.ts` in which every JS number is a `JNum`
(finite rational, `Infinity`, `-Infinity` or `NaN`), for the claim about
non-finite monetary inputs.  The rule/expression data types
(`StateBaseCalc.Rule`, `Expr`, `StateBaseRules`) are shared: rule constants
come from JSON, which cannot hold non-finite numbers.  The arithmetic on
`JNum` follows IEEE-754 special-value rules (precision is not modelled:
finite arithmetic is exact, which does not affect special-value
propagation). -/

open StateTaxEngine (FilingStatus)
open StateBaseCalc (Expr ExprList CaseList CmpOp Rule RuleKind RuleStatus
  StateBaseRules DeductionSpec StartingPointType filingStatusStr)

/-- A JS number: finite value, ±Infinity or NaN. -/
inductive JNum where
  | fin (q : ℚ)
  | inf
  | ninf
  | nan
deriving DecidableEq, Repr

/-- `Number.isFinite`. -/
def isFinite : JNum → Bool
  | .fin _ => true
  | _ => false

/-- JS truthiness of a number (`0` and `NaN` are falsy). -/
def truthy : JNum → Bool
  | .fin q => decide (q ≠ 0)
  | .nan => false
  | _ => true

/-- IEEE negation. -/
def jneg : JNum → JNum
  | .fin q => .fin (-q)
  | .inf => .ninf
  | .ninf => .inf
  | .nan => .nan

/-- IEEE addition. -/
def jadd : JNum → JNum → JNum
  | .nan, _ => .nan
  | _, .nan => .nan
  | .inf, .ninf => .nan
  | .ninf, .inf => .nan
  | .inf, _ => .inf
  | _, .inf => .inf
  | .ninf, _ => .ninf
  | _, .ninf => .ninf
  | .fin a, .fin b => .fin (a + b)

/-- IEEE subtraction: `a - b = a + (-b)`. -/
def jsub (a b : JNum) : JNum := jadd a (jneg b)

/-- `clamp0` of `stateBaseCalc.ts` over `JNum`:
`Number.isFinite(n) && n > 0 ? n : 0` — any non-finite or non-positive
number becomes `0`. -/
def clamp0 : JNum → JNum
  | .fin q => if 0 < q then .fin q else .fin 0
  | _ => .fin 0

/-- Runtime values of the evaluator in this model. -/
inductive JVal where
  | num (n : JNum)
  | boolv (b : Bool)
  | str (s : String)
deriving DecidableEq, Repr

/-- `toNum` (always finite: non-finite coercions collapse to 0). -/
def toNum : JVal → ℚ
  | .num (.fin q) => q
  | .num _ => 0
  | .boolv b => if b then 1 else 0
  | .str _ => 0

/-- `toBool` (JS truthiness). -/
def toBool : JVal → Bool
  | .num n => truthy n
  | .boolv b => b
  | .str s => decide (s ≠ "")

/-- `Number(v || 0)` on an optional looked-up value. -/
def numOfLookup : Option JVal → JVal
  | none => .num (.fin 0)
  | some (.num n) => if truthy n then .num n else .num (.fin 0)
  | some (.boolv b) => .num (.fin (if b then 1 else 0))
  | some (.str s) => if s = "" then .num (.fin 0) else .num .nan

/-- Numeric comparison against a finite constant, IEEE semantics for the
special left operands. -/
def cmpEval (op : CmpOp) (l : JVal) (r : ℚ) : Bool :=
  match l with
  | .num (.fin a) =>
    match op with
    | .gt => decide (a > r)
    | .ge => decide (a ≥ r)
    | .lt => decide (a < r)
    | .le => decide (a ≤ r)
    | .eq => decide (a = r)
    | .ne => decide (a ≠ r)
  | .num .inf =>
    match op with
    | .gt | .ge | .ne => true
    | _ => false
  | .num .ninf =>
    match op with
    | .lt | .le | .ne => true
    | _ => false
  | _ =>
    match op with
    | .ne => true
    | _ => false

/-- `EvalContext` with possibly non-finite computed values. -/
structure EvalContext where
  year : ℤ
  state : String
  filingStatus : FilingStatus
  input : String → Option JVal
  federalAGI : JNum
  federalTaxableIncome : Option JNum := none
  stateAGI : Option JNum := none

/-- `getPath`. -/
def getPath (path : String) (ctx : EvalContext) : Option JVal :=
  let p := StateTaxEngine.jsTrim path
  if p = "" then none
  else if p = "federalAGI" then some (.num ctx.federalAGI)
  else if p = "federalTaxableIncome" then ctx.federalTaxableIncome.map .num
  else if p = "stateAGI" then ctx.stateAGI.map .num
  else if p = "filingStatus" then some (.str (filingStatusStr ctx.filingStatus))
  else ctx.input p

/-- Result of one expression evaluation. -/
structure EvalOut where
  v : JVal
  warnings : List String
  missing : List String

/-- `Math.min(...nums)` over the (finite) coerced arguments. -/
def jsMin (nums : List ℚ) : JVal :=
  match nums with
  | [] => .num .inf
  | n :: rest => .num (.fin (rest.foldl min n))

/-- `Math.max(...nums)`. -/
def jsMax (nums : List ℚ) : JVal :=
  match nums with
  | [] => .num .ninf
  | n :: rest => .num (.fin (rest.foldl max n))

mutual
/-- `evalExpr` over the special-value model. -/
def evalExpr (e : Expr) (ctx : EvalContext) : EvalOut :=
  match e with
  | .constant v => ⟨.num (.fin v), [], []⟩
  | .value path =>
    match getPath path ctx with
    | none => ⟨.num (.fin 0), [], [path]⟩
    | some v => ⟨numOfLookup (some v), [], []⟩
  | .compare op path value =>
    ⟨.boolv (cmpEval op (numOfLookup (getPath path ctx)) value), [], []⟩
  | .mul args =>
    let (nums, w, m) := evalArgs args ctx
    ⟨.num (.fin (nums.foldl (· * ·) 1)), w, m⟩
  | .emin args =>
    let (nums, w, m) := evalArgs args ctx
    ⟨jsMin nums, w, m⟩
  | .emax args =>
    let (nums, w, m) := evalArgs args ctx
    ⟨jsMax nums, w, m⟩
  | .ecase cases dflt => evalCases cases dflt ctx
  | .unknown op => ⟨.num (.fin 0), ["unsupported_op:" ++ op], []⟩
termination_by sizeOf e

/-- Argument evaluation with `toNum` coercion. -/
def evalArgs (args : ExprList) (ctx : EvalContext) :
    List ℚ × List String × List String :=
  match args with
  | .nil => ([], [], [])
  | .cons h t =>
    let r := evalExpr h ctx
    let (ns, w, m) := evalArgs t ctx
    (toNum r.v :: ns, r.warnings ++ w, r.missing ++ m)
termination_by sizeOf args

/-- The `case` branch scan. -/
def evalCases (cases : CaseList) (dflt : Expr) (ctx : EvalContext) : EvalOut :=
  match cases with
  | .nil => evalExpr dflt ctx
  | .cons whenE thenE rest =>
    let rw := evalExpr whenE ctx
    if toBool rw.v then
      let rt := evalExpr thenE ctx
      ⟨rt.v, rw.warnings ++ rt.warnings, rw.missing ++ rt.missing⟩
    else
      let rr := evalCases rest dflt ctx
      ⟨rr.v, rw.warnings ++ rr.warnings, rw.missing ++ rr.missing⟩
termination_by sizeOf cases + sizeOf dflt
end

/-- `evalRule` (rule amounts are clamped finite non-negative rationals). -/
def evalRule (rule : Rule) (ctx : EvalContext) :
    Bool × ℚ × List String × List String :=
  if rule.enabled = some false then (false, 0, [], [])
  else if rule.status = some .needs_detail then
    (false, 0, ["rule_needs_detail:" ++ rule.id], [])
  else
    let reqMissing := rule.requires.filter fun req => (getPath req ctx).isNone
    match rule.when with
    | none =>
      match rule.amount with
      | none => (false, 0, [], reqMissing)
      | some aE =>
        let r := evalExpr aE ctx
        (true, StateBaseCalc.clamp0 (toNum r.v), r.warnings, reqMissing ++ r.missing)
    | some wE =>
      let rw := evalExpr wE ctx
      if toBool rw.v then
        match rule.amount with
        | none => (false, 0, rw.warnings, reqMissing ++ rw.missing)
        | some aE =>
          let r := evalExpr aE ctx
          (true, StateBaseCalc.clamp0 (toNum r.v), rw.warnings ++ r.warnings,
            reqMissing ++ rw.missing ++ r.missing)
      else (false, 0, rw.warnings, reqMissing ++ rw.missing)

/-- `ApplyResult` of this model (`value` is a `JNum`; the audit entries are
dropped — they are not part of the special-value claim). -/
structure ApplyResult where
  value : JNum
  warnings : List String
  missingInputs : List String

/-- The context argument of `applyStateConformity`. -/
structure ConformityCtx where
  year : ℤ
  state : String
  filingStatus : FilingStatus
  input : String → Option JVal
  federalTaxableIncome : Option JNum := none

/-- Rule-loop accumulator step: `(total, warnings, missing)`. -/
def ruleFoldStep (evalCtx : EvalContext)
    (acc : ℚ × List String × List String) (rule : Rule) :
    ℚ × List String × List String :=
  let (total, warns, miss) := acc
  let (applied, amount, w, m) := evalRule rule evalCtx
  if applied then (total + amount, warns ++ w, miss ++ m)
  else (total, warns ++ w, miss ++ m)

/-- `applyStateConformity` over the special-value model:
`base = Number(federalAGI || 0)` keeps ±Infinity, collapses NaN to 0; the
rule totals are finite; the final value is `clamp0(base + totalAdd - totalSub)`. -/
def applyStateConformity (federalAGI : JNum) (stateRules : StateBaseRules)
    (ctx : ConformityCtx) : ApplyResult :=
  let agiNum := if truthy federalAGI then federalAGI else .fin 0
  let baseType := stateRules.startingPointType.getD .federalAGI
  let baseAndWarn : JNum × List String :=
    match baseType with
    | .federalAGI => (agiNum, [])
    | .federalTaxableIncome =>
      match ctx.federalTaxableIncome with
      | none => (agiNum, ["startingPoint.federalTaxableIncome_missing_using_federalAGI"])
      | some fti => (if truthy fti then fti else .fin 0, [])
    | .stateDefined => (agiNum, ["startingPoint.stateDefined_fallback_to_federalAGI"])
  let base := baseAndWarn.1
  let evalCtx : EvalContext :=
    { year := ctx.year, state := ctx.state, filingStatus := ctx.filingStatus,
      input := ctx.input, federalAGI := agiNum,
      federalTaxableIncome := ctx.federalTaxableIncome, stateAGI := some base }
  let addAcc := stateRules.additions.foldl (ruleFoldStep evalCtx)
    (0, baseAndWarn.2, [])
  let totalAdd := addAcc.1
  let evalCtx2 := { evalCtx with stateAGI := some (jadd base (.fin totalAdd)) }
  let subAcc := stateRules.subtractions.foldl (ruleFoldStep evalCtx2)
    (0, addAcc.2.1, addAcc.2.2)
  let totalSub := subAcc.1
  { value := clamp0 (jsub (jadd base (.fin totalAdd)) (.fin totalSub)),
    warnings := subAcc.2.1.eraseDups,
    missingInputs := subAcc.2.2.eraseDups }

/-- The context argument of `applyStateDeductions`. -/
structure DeductionsCtx where
  year : ℤ
  state : String
  filingStatus : FilingStatus
  input : String → Option JVal
  federalAGI : JNum
  federalTaxableIncome : Option JNum := none
  useItemized : Bool := false

/-- `applyStateDeductions` over the special-value model. -/
def applyStateDeductions (stateAGI : JNum) (stateRules : StateBaseRules)
    (ctx : DeductionsCtx) : ApplyResult :=
  let std := (stateRules.standardDeduction.byStatus ctx.filingStatus).getD
    (stateRules.standardDeduction.dflt.getD 0)
  let pe := (stateRules.personalExemption.byStatus ctx.filingStatus).getD
    (stateRules.personalExemption.dflt.getD 0)
  let deductionTotal0 := std + pe
  let stateAgiNum := if truthy stateAGI then stateAGI else .fin 0
  let itemAcc :=
    if ctx.useItemized then
      let evalCtx : EvalContext :=
        { year := ctx.year, state := ctx.state, filingStatus := ctx.filingStatus,
          input := ctx.input, federalAGI := ctx.federalAGI,
          federalTaxableIncome := ctx.federalTaxableIncome,
          stateAGI := some stateAgiNum }
      stateRules.itemizedRules.foldl (ruleFoldStep evalCtx) (0, [], [])
    else (0, [], [])
  let deductionTotal := deductionTotal0 + itemAcc.1
  { value := clamp0 (jsub stateAgiNum (.fin deductionTotal)),
    warnings := itemAcc.2.1.eraseDups,
    missingInputs := itemAcc.2.2.eraseDups }

end Jx

/-! # Helper lemmas -/

namespace StateTaxEngine

/-- The fixed result both engine entry points return for a no-income-tax
state (with the given taxable amount and note). -/
def noTaxResult (state : String) (year : ℤ) (taxable : ℚ) : StateTaxResult :=
  { state := state, year := year, hasIncomeTax := false,
    taxableBase := round2 taxable, tax := 0, effectiveRate := 0,
    breakdown := [], note := some "No state income tax" }

theorem calcStateTax_noTaxState (lookup : String → Option StateTaxRules)
    (input : StateTaxInput)
    (h : normalizeState input.state ∈ NO_INCOME_TAX_STATES) :
    calcStateTax lookup input =
      .ok (noTaxResult (normalizeState input.state) input.year
        (clamp0 input.taxableIncome)) := by
  unfold calcStateTax noTaxResult
  simp [h]

theorem calcStateTaxFromTaxableBase_noTaxState
    (lookup : String → Option StateTaxRules)
    (input : StateTaxFromTaxableBaseInput)
    (h : normalizeState input.state ∈ NO_INCOME_TAX_STATES) :
    calcStateTaxFromTaxableBase lookup input =
      .ok (noTaxResult (normalizeState input.state) input.year
        (clamp0 input.taxableBase)) := by
  unfold calcStateTaxFromTaxableBase noTaxResult
  simp [h]

end StateTaxEngine

/-! # Claim C9 -/

section ClaimC9

open StateTaxEngine

/-- C9: for every input whose normalized state is one of the eight
no-income-tax states (AK, FL, NV, SD, TN, TX, WA, WY), both `calcStateTax`
and `calcStateTaxFromTaxableBase` return tax = 0, hasIncomeTax = false and an
empty breakdown, without consulting any loaded ruleset (the conclusion holds
for every `lookup`) and regardless of the taxable amount or of what the
compiled ruleset for that state contains. -/
theorem noIncomeTaxState_shortCircuits
    (lookup : String → Option StateTaxRules)
    (input : StateTaxInput) (input2 : StateTaxFromTaxableBaseInput)
    (h : normalizeState input.state ∈ NO_INCOME_TAX_STATES)
    (h2 : normalizeState input2.state ∈ NO_INCOME_TAX_STATES) :
    calcStateTax lookup input =
      .ok (noTaxResult (normalizeState input.state) input.year
        (clamp0 input.taxableIncome)) ∧
    calcStateTaxFromTaxableBase lookup input2 =
      .ok (noTaxResult (normalizeState input2.state) input2.year
        (clamp0 input2.taxableBase)) :=
  ⟨calcStateTax_noTaxState lookup input h,
   calcStateTaxFromTaxableBase_noTaxState lookup input2 h2⟩

/-- A ruleset that claims Texas has a 5% flat income tax — used to show the
short circuit ignores whatever the ruleset says. -/
def c9rules : StateTaxRules :=
  { state := "TX", year := 2026, hasIncomeTax := true,
    taxType := some .flat, flatRate := some 0.05 }

/-- A lookup that returns `c9rules` for every state. -/
def c9lookup : String → Option StateTaxRules := fun _ => some c9rules

/-- Concrete input for the C9 witness (unnormalized state string). -/
def c9input : StateTaxInput :=
  { state := " tx ", year := 2026, filingStatus := .single, taxableIncome := 100000 }

/-- Concrete input for the C9 witness, second entry point. -/
def c9input2 : StateTaxFromTaxableBaseInput :=
  { year := 2026, state := "wy", filingStatus := .mfj, taxableBase := 250000 }

/-- Witness for C9 at concrete inputs: the hypotheses hold and the
short-circuit results come out even though the injected ruleset asserts a
flat tax. -/
theorem noIncomeTaxState_shortCircuits_witness :
    normalizeState c9input.state ∈ NO_INCOME_TAX_STATES ∧
    normalizeState c9input2.state ∈ NO_INCOME_TAX_STATES ∧
    (calcStateTax c9lookup c9input =
      .ok (noTaxResult (normalizeState c9input.state) c9input.year
        (clamp0 c9input.taxableIncome)) ∧
    calcStateTaxFromTaxableBase c9lookup c9input2 =
      .ok (noTaxResult (normalizeState c9input2.state) c9input2.year
        (clamp0 c9input2.taxableBase))) :=
  ⟨by decide, by decide,
   noIncomeTaxState_shortCircuits c9lookup c9input c9input2 (by decide) (by decide)⟩

end ClaimC9

/-! # Claim C1 -/

section ClaimC1

open StateTaxEngine

/-- C1 (amended): for a jurisdiction expected to have income tax
(`hasIncomeTax` true, `taxType` not flat), `calcStateTax` fails with the
descriptive error `"Missing brackets/flatRate for ..."` when the bracket
table for the requested filing status is missing or empty; but
`calcStateTaxFromTaxableBase` does not fail: it falls back to the
single-filer table and, when the effective table is empty, silently returns
tax = 0 with an empty breakdown. -/
theorem missingBrackets_errorOrSilentZero :
    (∀ (lookup : String → Option StateTaxRules) (input : StateTaxInput) rules,
      lookup (normalizeState input.state) = some rules →
      normalizeState input.state ∉ NO_INCOME_TAX_STATES →
      rules.hasIncomeTax = true →
      rules.taxType ≠ some .flat →
      (rules.brackets input.filingStatus = none ∨
       rules.brackets input.filingStatus = some []) →
      calcStateTax lookup input =
        .error ("Missing brackets/flatRate for " ++ normalizeState input.state ++
          " (" ++ toString input.year ++ ")")) ∧
    (∀ (lookup : String → Option StateTaxRules)
      (input : StateTaxFromTaxableBaseInput) rules,
      lookup (normalizeState input.state) = some rules →
      normalizeState input.state ∉ NO_INCOME_TAX_STATES →
      rules.hasIncomeTax = true →
      rules.taxType ≠ some .flat →
      (match rules.brackets input.filingStatus with
        | some bs => bs
        | none => (rules.brackets .single).getD []) = [] →
      calcStateTaxFromTaxableBase lookup input =
        .ok { state := normalizeState input.state, year := input.year,
              hasIncomeTax := true,
              taxableBase := round2 (clamp0 input.taxableBase), tax := 0,
              effectiveRate := 0, breakdown := [], note := rules.notes }) := by
  constructor
  · intro lookup input rules hlk hmem hinc hflat hbr
    unfold calcStateTax
    simp only [hmem, if_false, hlk, hinc]
    rcases htt : rules.taxType with _ | tt
    · rcases hbr with hbr | hbr <;> simp [hbr]
    · cases tt
      · exact absurd htt hflat
      · rcases hfr : rules.flatRate with _ | r <;>
          rcases hbr with hbr | hbr <;> simp [hbr]
  · intro lookup input rules hlk hmem hinc hflat hbr
    unfold calcStateTaxFromTaxableBase
    simp only [hmem, if_false, hlk, hinc]
    rcases htt : rules.taxType with _ | tt
    · simp [hbr, fromBaseLoop, round2_zero]
    · cases tt
      · exact absurd htt hflat
      · rcases hfr : rules.flatRate with _ | r <;>
          simp [hbr, fromBaseLoop, round2_zero]

/-- A progressive ruleset whose bracket tables are all absent. -/
def c1rules : StateTaxRules :=
  { state := "CA", year := 2026, hasIncomeTax := true,
    taxType := some .progressive }

/-- Lookup returning `c1rules` for California. -/
def c1lookup : String → Option StateTaxRules :=
  fun s => if s = "CA" then some c1rules else none

/-- Counterexample to C1 as stated: on a jurisdiction expected to have income
tax (`hasIncomeTax` true, progressive) whose bracket table is missing for the
requested filing status (and for `single`), `calcStateTaxFromTaxableBase`
does **not** fail — it returns tax = 0. -/
theorem missingBrackets_silentZero_cex :
    c1rules.hasIncomeTax = true ∧
    c1rules.taxType ≠ some .flat ∧
    c1rules.brackets .single = none ∧
    Except.map StateTaxResult.tax
      (calcStateTaxFromTaxableBase c1lookup
        { year := 2026, state := "CA", filingStatus := .single,
          taxableBase := 50000 }) = .ok 0 := by
  refine ⟨rfl, by decide, rfl, ?_⟩
  have hs : normalizeState "CA" = "CA" := rfl
  simp [calcStateTaxFromTaxableBase, hs, c1lookup, c1rules, fromBaseLoop,
    round2_zero, NO_INCOME_TAX_STATES, Except.map]

/-- Concrete input for the C1 witness. -/
def c1input : StateTaxInput :=
  { state := "CA", year := 2026, filingStatus := .single, taxableIncome := 50000 }

/-- Concrete input for the C1 witness, second entry point. -/
def c1input2 : StateTaxFromTaxableBaseInput :=
  { year := 2026, state := "CA", filingStatus := .single, taxableBase := 50000 }

/-- Witness for the amended C1 at concrete inputs: `calcStateTax` errors,
`calcStateTaxFromTaxableBase` returns tax = 0. -/
theorem missingBrackets_errorOrSilentZero_witness :
    calcStateTax c1lookup c1input =
      .error ("Missing brackets/flatRate for " ++ normalizeState c1input.state ++
        " (" ++ toString c1input.year ++ ")") ∧
    calcStateTaxFromTaxableBase c1lookup c1input2 =
      .ok { state := normalizeState c1input2.state, year := c1input2.year,
            hasIncomeTax := true,
            taxableBase := round2 (clamp0 c1input2.taxableBase), tax := 0,
            effectiveRate := 0, breakdown := [], note := c1rules.notes } :=
  ⟨missingBrackets_errorOrSilentZero.1 c1lookup c1input c1rules rfl
      (by decide) rfl (by decide) (Or.inl rfl),
   missingBrackets_errorOrSilentZero.2 c1lookup c1input2 c1rules rfl
      (by decide) rfl (by decide) rfl⟩

end ClaimC1

/-! # Claim C8 -/

section ClaimC8

open StateBaseCalc

/-- C8: rule-expression evaluation is fail-soft.  Evaluation is a total
function by construction (it completes on every expression tree and context);
an unknown/unsupported node kind yields 0 and records a structured warning,
and a `value` node whose path does not resolve in the context yields 0 and
records the path in `missingInputs`. -/
theorem evalExpr_failSoft :
    (∀ (op : String) (ctx : EvalContext),
      evalExpr (.unknown op) ctx =
        { v := .num 0, warnings := ["unsupported_op:" ++ op], missing := [] }) ∧
    (∀ (path : String) (ctx : EvalContext),
      getPath path ctx = none →
      evalExpr (.value path) ctx =
        { v := .num 0, warnings := [], missing := [path] }) := by
  constructor
  · intro op ctx
    simp [evalExpr]
  · intro path ctx h
    simp [evalExpr, h]

/-- A concrete evaluation context with an empty facts map. -/
def c8ctx : EvalContext :=
  { year := 2026, state := "CA", filingStatus := .single,
    input := fun _ => none, federalAGI := 100000 }

/-- Witness for C8: a concrete unsupported node and a concrete unresolvable
path, evaluated in `c8ctx`. -/
theorem evalExpr_failSoft_witness :
    evalExpr (.unknown "divide") c8ctx =
      { v := .num 0, warnings := ["unsupported_op:divide"], missing := [] } ∧
    getPath "retirementIncome" c8ctx = none ∧
    evalExpr (.value "retirementIncome") c8ctx =
      { v := .num 0, warnings := [], missing := ["retirementIncome"] } :=
  ⟨evalExpr_failSoft.1 "divide" c8ctx, rfl,
   evalExpr_failSoft.2 "retirementIncome" c8ctx rfl⟩

end ClaimC8

/-! # Claim C10 -/

section ClaimC10

/-- `true` exactly on finite non-negative JS numbers. -/
def Jx.finiteNonneg : Jx.JNum → Bool
  | .fin q => decide (0 ≤ q)
  | _ => false

theorem Jx.clamp0_finiteNonneg (n : Jx.JNum) :
    Jx.finiteNonneg (Jx.clamp0 n) = true := by
  cases n with
  | fin q =>
    by_cases h : 0 < q
    · simp [Jx.clamp0, h, Jx.finiteNonneg, le_of_lt h]
    · simp [Jx.clamp0, h, Jx.finiteNonneg]
  | inf => simp [Jx.clamp0, Jx.finiteNonneg]
  | ninf => simp [Jx.clamp0, Jx.finiteNonneg]
  | nan => simp [Jx.clamp0, Jx.finiteNonneg]

/-- C10: over the IEEE special-value model, for every input — including
federal AGI / state AGI arguments and fact-map entries that are NaN or
±Infinity — `applyStateConformity` and `applyStateDeductions` return a
`value` that is a finite non-negative number, because their `clamp0` maps
any non-finite or non-positive number to 0. -/
theorem conformity_deductions_value_finiteNonneg :
    (∀ (agi : Jx.JNum) (rules : StateBaseCalc.StateBaseRules)
       (ctx : Jx.ConformityCtx),
      Jx.finiteNonneg (Jx.applyStateConformity agi rules ctx).value = true) ∧
    (∀ (sagi : Jx.JNum) (rules : StateBaseCalc.StateBaseRules)
       (ctx : Jx.DeductionsCtx),
      Jx.finiteNonneg (Jx.applyStateDeductions sagi rules ctx).value = true) ∧
    (∀ n : Jx.JNum, Jx.isFinite n = false → Jx.clamp0 n = .fin 0) ∧
    (∀ q : ℚ, q ≤ 0 → Jx.clamp0 (.fin q) = .fin 0) := by
  refine ⟨?_, ?_, ?_, ?_⟩
  · intro agi rules ctx
    exact Jx.clamp0_finiteNonneg _
  · intro sagi rules ctx
    exact Jx.clamp0_finiteNonneg _
  · intro n h
    cases n <;> simp_all [Jx.isFinite, Jx.clamp0]
  · intro q h
    simp [Jx.clamp0, not_lt.mpr h]

/-- Trivial base-rules record for the C10 witness. -/
def c10rules : StateBaseCalc.StateBaseRules := {}

/-- Conformity context for the C10 witness (facts map holding a NaN). -/
def c10ctx : Jx.ConformityCtx :=
  { year := 2026, state := "NY", filingStatus := .single,
    input := fun _ => some (.num .nan) }

/-- Deductions context for the C10 witness. -/
def c10dctx : Jx.DeductionsCtx :=
  { year := 2026, state := "NY", filingStatus := .single,
    input := fun _ => some (.num .nan), federalAGI := .inf }

/-- Witness for C10 at concrete special-value inputs (NaN federal AGI,
Infinity state AGI, non-finite and non-positive arguments of `clamp0`). -/
theorem conformity_deductions_value_finiteNonneg_witness :
    Jx.finiteNonneg (Jx.applyStateConformity .nan c10rules c10ctx).value = true ∧
    Jx.finiteNonneg (Jx.applyStateDeductions .inf c10rules c10dctx).value = true ∧
    Jx.clamp0 .ninf = .fin 0 ∧
    Jx.clamp0 (.fin (-5)) = .fin 0 :=
  ⟨conformity_deductions_value_finiteNonneg.1 .nan c10rules c10ctx,
   conformity_deductions_value_finiteNonneg.2.1 .inf c10rules c10dctx,
   conformity_deductions_value_finiteNonneg.2.2.1 .ninf rfl,
   conformity_deductions_value_finiteNonneg.2.2.2 (-5) (by norm_num)⟩

end ClaimC10

/-! # Claim C3 -/

section ClaimC3

open SeTax SimulationService

/-- C3 (amended): `computeSelfEmploymentTax` defines the above-the-line
deductible half as `(ssTax + medicareTax) * 0.5`, excluding the additional
Medicare tax; but the scenario comparison (`compareResultsNew`) derives the
1099 AGI from `halfSeDeduction = seTax / 2` where `seTax` is the **total**
placeholder SE tax, so its deductible half carries half of the additional
Medicare tax as well — the two agree only while the additional-Medicare part
is zero. -/
theorem seDeductibleHalf_excludesAdditionalMedicare :
    (∀ (C : SeTaxConstants) (netProfit w2Wages : ℚ)
       (fs : StateTaxEngine.FilingStatus) (threshold : ℚ),
      C.additionalMedicareThreshold fs = some threshold →
      Except.map SeTaxResult.deductibleHalf
        (computeSelfEmploymentTax C netProfit w2Wages fs) =
        .ok (round2eps ((ssTax C netProfit w2Wages + medicareTax C netProfit) * 0.5))) ∧
    (∀ netProfit : ℚ,
      halfSeDeduction netProfit =
        (seTaxPlaceholderSs netProfit + seTaxPlaceholderMed netProfit) * 0.5 +
          seTaxPlaceholderAdd netProfit / 2) := by
  constructor
  · intro C netProfit w2Wages fs threshold hth
    unfold computeSelfEmploymentTax
    rw [hth]
    simp [Except.map, deductibleHalf, seTaxSum]
  · intro netProfit
    unfold halfSeDeduction calcSeTax_placeholder
    ring

/-- Counterexample to C3 as stated: at netProfit = 300000 (net earnings
277050 above the 200000 additional-Medicare threshold) the deductible half
used by the scenario comparison is 14817.15, while
`(ssTax + medicareTax) * 0.5` is 14470.425 — the comparison's half includes
the additional Medicare tax. -/
theorem seDeductibleHalf_comparison_cex :
    halfSeDeduction 300000 ≠
      (seTaxPlaceholderSs 300000 + seTaxPlaceholderMed 300000) * 0.5 := by
  unfold halfSeDeduction calcSeTax_placeholder seTaxPlaceholderSs
    seTaxPlaceholderMed seTaxPlaceholderAdd
  norm_num

/-- SE-tax constants block used for the C3 witness (the 2025 values of
`federal_constants.json`). -/
def seC2025 : SeTaxConstants :=
  { ssWageBase := 168600, seNetEarningsFactor := 0.9235, ssRate := 0.124,
    medicareRate := 0.029, additionalMedicareRate := 0.009,
    additionalMedicareThreshold := fun _ => some 200000 }

/-- Witness for the amended C3 at concrete inputs. -/
theorem seDeductibleHalf_excludesAdditionalMedicare_witness :
    seC2025.additionalMedicareThreshold .single = some 200000 ∧
    Except.map SeTaxResult.deductibleHalf
      (computeSelfEmploymentTax seC2025 100000 0 .single) =
      .ok (round2eps ((ssTax seC2025 100000 0 + medicareTax seC2025 100000) * 0.5)) ∧
    halfSeDeduction 300000 =
      (seTaxPlaceholderSs 300000 + seTaxPlaceholderMed 300000) * 0.5 +
        seTaxPlaceholderAdd 300000 / 2 :=
  ⟨rfl,
   seDeductibleHalf_excludesAdditionalMedicare.1 seC2025 100000 0 .single 200000 rfl,
   seDeductibleHalf_excludesAdditionalMedicare.2 300000⟩

end ClaimC3

/-! # Claim C6 -/

section ClaimC6

open StateBaseCalc

theorem evalRule_amount_of_not_applied (r : Rule) (ctx : EvalContext)
    (h : (evalRule r ctx).applied = false) : (evalRule r ctx).amount = 0 := by
  unfold evalRule at h ⊢
  split_ifs at h ⊢ with h1 h2
  · rfl
  · rfl
  · rcases hw : r.when with _ | wE
    · rcases ha : r.amount with _ | aE
      · rfl
      · rw [hw, ha] at h
        simp at h
    · rcases ha : r.amount with _ | aE
      · dsimp only
        split <;> rfl
      · rw [hw, ha] at h
        dsimp only at h ⊢
        by_cases hb : (StateBaseCalc.toBool (evalExpr wE ctx).v) = true
        · rw [if_pos hb] at h
          simp at h
        · rw [if_neg hb]

/-- The running total of a rule loop is the sum of the rule amounts
(skipped rules contribute 0). -/
theorem ruleFold_total (evalCtx : EvalContext)
    (entryOf : Rule → ℚ → AppliedEntry) (rules : List Rule)
    (t : ℚ) (ap : List AppliedEntry) (w m : List String) :
    (rules.foldl (ruleFoldStep evalCtx entryOf) (t, ap, w, m)).1 =
      t + (rules.map fun r => (evalRule r evalCtx).amount).sum := by
  induction rules generalizing t ap w m with
  | nil => simp
  | cons r rest ih =>
    rw [List.foldl_cons, List.map_cons, List.sum_cons]
    rcases hap : (evalRule r evalCtx).applied
    · have hstep : ruleFoldStep evalCtx entryOf (t, ap, w, m) r =
          (t, ap, w ++ (evalRule r evalCtx).warnings,
            m ++ (evalRule r evalCtx).missing) := by
        simp [ruleFoldStep, hap]
      rw [hstep, ih, evalRule_amount_of_not_applied r evalCtx hap]
      ring
    · have hstep : ruleFoldStep evalCtx entryOf (t, ap, w, m) r =
          (t + (evalRule r evalCtx).amount,
            ap ++ [entryOf r (evalRule r evalCtx).amount],
            w ++ (evalRule r evalCtx).warnings,
            m ++ (evalRule r evalCtx).missing) := by
        simp [ruleFoldStep, hap]
      rw [hstep, ih]
      ring

/-- C6: `applyStateConformity` selects the starting base, evaluates every
addition rule against a context whose `stateAGI` is that base, sets the
working `stateAGI` to `base + totalAdd` **before** evaluating any subtraction
rule (so subtraction rules referencing `stateAGI` see the post-addition
value), and returns `value = clamp0 (base + totalAdd - totalSub)`. -/
theorem applyStateConformity_pipeline (federalAGI : ℚ)
    (stateRules : StateBaseRules) (ctx : ConformityCtx) :
    (applyStateConformity federalAGI stateRules ctx).value =
      (let base : ℚ :=
        match stateRules.startingPointType.getD .federalAGI with
        | .federalTaxableIncome => ctx.federalTaxableIncome.getD federalAGI
        | _ => federalAGI
      let ctxAdd : EvalContext :=
        { year := ctx.year, state := ctx.state, filingStatus := ctx.filingStatus,
          input := ctx.input, federalAGI := federalAGI,
          federalTaxableIncome := ctx.federalTaxableIncome,
          stateAGI := some base }
      let totalAdd :=
        (stateRules.additions.map fun r => (evalRule r ctxAdd).amount).sum
      let ctxSub := { ctxAdd with stateAGI := some (base + totalAdd) }
      let totalSub :=
        (stateRules.subtractions.map fun r => (evalRule r ctxSub).amount).sum
      StateBaseCalc.clamp0 (base + totalAdd - totalSub)) := by
  unfold applyStateConformity
  rcases hsp : stateRules.startingPointType.getD .federalAGI with _ | _ | _ <;>
    simp only [hsp]
  · simp only [ruleFold_total]
    simp
  · rcases hfti : ctx.federalTaxableIncome with _ | fti <;>
      simp only [hfti, Option.getD_none, Option.getD_some] <;>
      simp only [ruleFold_total] <;> simp
  · simp only [ruleFold_total]
    simp

end ClaimC6

/-! # Claim C7 -/

section ClaimC7

open EstimatedQuarterly

set_option maxHeartbeats 1600000 in
/-- C7: the quarterly penalty-risk tracker reports cumulative required
amounts at the four due dates equal to 25/50/75/100% of the annual
requirement, counts withholding as (the cent-rounded) W/4 per quarter,
allocates a year-to-date-only payment total evenly across the quarters
already due, reports each quarter's underpayment as
`clamp0(cumulative required − cumulative paid)` and reports
`protectedBySafeHarbor` true iff no quarter has passed or the cumulative
paid at the last passed due date is at least the cumulative required minus
the 0.01 epsilon.  (`round2` is the engine's cent rounding; `passedRaw` is
the wall-clock count of due dates already past.) -/
theorem buildPenaltyRiskLite_spec (passedRaw : ℤ) (p : PenaltyRiskInput) :
    (let passed : ℤ := min 4 (max 0 passedRaw)
     let wpq := round2 (clamp0 p.withholdingAnnual / 4)
     let estPaid : Nat → ℚ := fun i =>
       if p.usePerQuarterPayments then
         (match i with
          | 1 => clamp0 p.paymentsMadeQ1
          | 2 => clamp0 p.paymentsMadeQ2
          | 3 => clamp0 p.paymentsMadeQ3
          | 4 => clamp0 p.paymentsMadeQ4
          | _ => 0)
       else if (i : ℤ) ≤ passed ∧ 0 < passed then
         round2 (clamp0 p.paymentsMadeYtdAnnual / (passed : ℚ))
       else 0
     let req : Nat → ℚ := fun k =>
       round2 (p.safeHarborRequiredAnnual * ((k : ℚ) / 4))
     let cumPaid : Nat → ℚ := fun k =>
       round2 ((k : ℚ) * wpq + ((List.range k).map fun j => estPaid (j + 1)).sum)
     let out := buildPenaltyRiskLite passedRaw p
     out.underpaymentByQuarter =
       ([1, 2, 3, 4].map fun k =>
         { label := "Q" ++ toString k,
           requiredByDueDate := req k,
           paidByDueDate := cumPaid k,
           underpayment := round2 (clamp0 (req k - cumPaid k)) }) ∧
     out.safeHarborRequiredToDate =
       round2 (if passed ≤ 0 then 0 else req passed.toNat) ∧
     out.paidToDate = round2 (if passed ≤ 0 then 0 else cumPaid passed.toNat) ∧
     (out.protectedBySafeHarbor = true ↔
       (passed ≤ 0 ∨
         req passed.toNat - 0.01 ≤ cumPaid passed.toNat))) := by
  unfold buildPenaltyRiskLite
  generalize hp : min 4 (max 0 passedRaw) = passed
  have h0 : 0 ≤ passed := by omega
  have h4 : passed ≤ 4 := by omega
  have hiff : ∀ a b c : ℚ, a = b → (a ≤ c ↔ b ≤ c) := fun a b c h => by rw [h]
  interval_cases passed <;>
    (dsimp only
     simp only [List.range, List.range.loop, List.map_cons, List.map_nil,
       List.foldl_cons, List.foldl_nil, List.sum_cons, List.sum_nil]
     norm_num [QuarterRow.mk.injEq]
     ring_nf) <;>
    try simp [round2_zero]
  all_goals
    refine ⟨by congr 2 <;> ring, hiff _ _ _ (by congr 1 <;> ring)⟩

end ClaimC7

/-! # Claim C5 -/

section ClaimC5

open StateTaxEngine

/-- All bracket rates are non-negative. -/
def ratesNonneg (bs : List Bracket) : Prop := ∀ br ∈ bs, 0 ≤ br.rate

/-- Finite caps strictly ascending, with a `null` (unbounded) cap allowed
only in the last position. -/
def capsAscending : List Bracket → Prop
  | [] => True
  | [_] => True
  | a :: b :: t =>
    (match a.upTo, b.upTo with
     | some x, some y => x < y
     | some _, none => True
     | none, _ => False) ∧ capsAscending (b :: t)

theorem ratesNonneg_tail {b : Bracket} {rest : List Bracket}
    (h : ratesNonneg (b :: rest)) : ratesNonneg rest :=
  fun x hx => h x (List.mem_cons_of_mem _ hx)

theorem ratesNonneg_head {b : Bracket} {rest : List Bracket}
    (h : ratesNonneg (b :: rest)) : 0 ≤ b.rate :=
  h b (List.mem_cons_self b rest)

theorem applyBracketsLoop_zero (bs : List Bracket) (c : ℚ) :
    applyBracketsLoop bs 0 c = (0, []) := by
  cases bs with
  | nil => rfl
  | cons b rest => simp [applyBracketsLoop]

theorem sub_min_mono {a b band : ℚ} (hab : a ≤ b) :
    a - min a band ≤ b - min b band := by
  rcases le_total a band with h | h
  · rw [min_eq_left h]
    have h2 : min b band ≤ b := min_le_left b band
    linarith
  · rw [min_eq_right h, min_eq_right (h.trans hab)]
    linarith

theorem applyBracketsLoop_nonneg (bs : List Bracket) (hr : ratesNonneg bs) :
    ∀ r c, 0 ≤ (applyBracketsLoop bs r c).1 := by
  induction bs with
  | nil =>
    intro r c
    simp [applyBracketsLoop]
  | cons b rest ih =>
    intro r c
    have hb : 0 ≤ b.rate := ratesNonneg_head hr
    rw [applyBracketsLoop]
    split_ifs with h0
    · simp
    · push_neg at h0
      cases hu : b.upTo with
      | none =>
        rcases hrec : applyBracketsLoop rest (r - min r r) c with ⟨t, bd⟩
        have ht := ih (ratesNonneg_tail hr) (r - min r r) c
        rw [hrec] at ht
        simp only [hrec]
        dsimp at ht ⊢
        have hm : 0 ≤ min r r * b.rate :=
          mul_nonneg (by rw [min_self]; linarith) hb
        linarith
      | some cap =>
        rcases hrec : applyBracketsLoop rest (r - min r (max 0 (cap - c))) cap
          with ⟨t, bd⟩
        have ht := ih (ratesNonneg_tail hr) (r - min r (max 0 (cap - c))) cap
        rw [hrec] at ht
        simp only [hrec]
        dsimp at ht ⊢
        have hband : (0:ℚ) ≤ max 0 (cap - c) := le_max_left 0 _
        have hm : 0 ≤ min r (max 0 (cap - c)) * b.rate :=
          mul_nonneg (le_min (le_of_lt h0) hband) hb
        linarith

theorem applyBracketsLoop_mono (bs : List Bracket) (hr : ratesNonneg bs) :
    ∀ {ra rb : ℚ} (c : ℚ), ra ≤ rb →
      (applyBracketsLoop bs ra c).1 ≤ (applyBracketsLoop bs rb c).1 := by
  induction bs with
  | nil =>
    intro ra rb c hab
    simp [applyBracketsLoop]
  | cons b rest ih =>
    intro ra rb c hab
    have hb : 0 ≤ b.rate := ratesNonneg_head hr
    rw [applyBracketsLoop, applyBracketsLoop]
    split_ifs with h1 h2 h2
    · simp
    · -- ra ≤ 0 < rb : left side 0, right side non-negative
      have := applyBracketsLoop_nonneg (b :: rest) hr rb c
      rw [applyBracketsLoop] at this
      rw [if_neg h2] at this
      simpa using this
    · linarith
    · push_neg at h1 h2
      cases hu : b.upTo with
      | none =>
        rcases h1rec : applyBracketsLoop rest (ra - min ra ra) c with ⟨t1, bd1⟩
        rcases h2rec : applyBracketsLoop rest (rb - min rb rb) c with ⟨t2, bd2⟩
        have hts : t1 ≤ t2 := by
          have hab2 : ra - min ra ra ≤ rb - min rb rb := by
            rw [min_self, min_self]
            linarith
          have := ih (ratesNonneg_tail hr) c hab2
          rw [h1rec, h2rec] at this
          exact this
        simp only [h1rec, h2rec]
        have : min ra ra * b.rate ≤ min rb rb * b.rate := by
          rw [min_self, min_self]
          exact mul_le_mul_of_nonneg_right hab hb
        linarith
      | some cap =>
        rcases h1rec : applyBracketsLoop rest (ra - min ra (max 0 (cap - c))) cap
          with ⟨t1, bd1⟩
        rcases h2rec : applyBracketsLoop rest (rb - min rb (max 0 (cap - c))) cap
          with ⟨t2, bd2⟩
        have hts : t1 ≤ t2 := by
          have hab2 : ra - min ra (max 0 (cap - c)) ≤
              rb - min rb (max 0 (cap - c)) := sub_min_mono hab
          have := ih (ratesNonneg_tail hr) cap hab2
          rw [h1rec, h2rec] at this
          exact this
        simp only [h1rec, h2rec]
        have hmin : min ra (max 0 (cap - c)) ≤ min rb (max 0 (cap - c)) :=
          min_le_min hab (le_refl _)
        have : min ra (max 0 (cap - c)) * b.rate ≤
            min rb (max 0 (cap - c)) * b.rate :=
          mul_le_mul_of_nonneg_right hmin hb
        linarith

theorem calcTaxLoop_nonneg (bs : List Bracket) (hr : ratesNonneg bs) :
    ∀ t prev, 0 ≤ EstimatedQuarterly.calcTaxLoop t bs prev := by
  induction bs with
  | nil =>
    intro t prev
    simp [EstimatedQuarterly.calcTaxLoop]
  | cons b rest ih =>
    intro t prev
    have hb : 0 ≤ b.rate := ratesNonneg_head hr
    rw [EstimatedQuarterly.calcTaxLoop]
    cases hu : b.upTo with
    | none => exact mul_nonneg (clamp0_nonneg _) hb
    | some u =>
      dsimp
      split_ifs with h
      · exact mul_nonneg (clamp0_nonneg _) hb
      · have := ih (ratesNonneg_tail hr) t u
        have hm := mul_nonneg (clamp0_nonneg (min t u - prev)) hb
        linarith

theorem calcTaxLoop_mono (bs : List Bracket) (hr : ratesNonneg bs) :
    ∀ {a b : ℚ} (prev : ℚ), a ≤ b →
      EstimatedQuarterly.calcTaxLoop a bs prev ≤
        EstimatedQuarterly.calcTaxLoop b bs prev := by
  induction bs with
  | nil =>
    intro a b prev hab
    simp [EstimatedQuarterly.calcTaxLoop]
  | cons br rest ih =>
    intro a b prev hab
    have hb : 0 ≤ br.rate := ratesNonneg_head hr
    rw [EstimatedQuarterly.calcTaxLoop, EstimatedQuarterly.calcTaxLoop]
    cases hu : br.upTo with
    | none =>
      exact mul_le_mul_of_nonneg_right (clamp0_mono (by linarith)) hb
    | some u =>
      dsimp
      have hamt : clamp0 (min a u - prev) ≤ clamp0 (min b u - prev) :=
        clamp0_mono (by have := min_le_min hab (le_refl u); linarith)
      split_ifs with h1 h2 h2
      · exact mul_le_mul_of_nonneg_right hamt hb
      · have := calcTaxLoop_nonneg rest (ratesNonneg_tail hr) b u
        have := mul_le_mul_of_nonneg_right hamt hb
        linarith
      · linarith
      · push_neg at h1 h2
        have heq : min a u = min b u := by
          rw [min_eq_right (le_of_lt h1), min_eq_right (le_of_lt h2)]
        rw [heq]
        have := ih (ratesNonneg_tail hr) (a := a) (b := b) u hab
        linarith

theorem fedBracketLoop_nonneg (bs : List Bracket) (hr : ratesNonneg bs) :
    ∀ t prev, 0 ≤ FederalTaxEngine.bracketLoop t bs prev := by
  induction bs with
  | nil =>
    intro t prev
    simp [FederalTaxEngine.bracketLoop]
  | cons b rest ih =>
    intro t prev
    have hb : 0 ≤ b.rate := ratesNonneg_head hr
    rw [FederalTaxEngine.bracketLoop]
    cases hu : b.upTo with
    | none => exact mul_nonneg (clamp0_nonneg _) hb
    | some u =>
      dsimp
      split_ifs with h
      · exact mul_nonneg (clamp0_nonneg _) hb
      · have := ih (ratesNonneg_tail hr) t u
        have hm := mul_nonneg (clamp0_nonneg (min t u - prev)) hb
        linarith

theorem fedBracketLoop_mono (bs : List Bracket) (hr : ratesNonneg bs) :
    ∀ {a b : ℚ} (prev : ℚ), a ≤ b →
      FederalTaxEngine.bracketLoop a bs prev ≤
        FederalTaxEngine.bracketLoop b bs prev := by
  induction bs with
  | nil =>
    intro a b prev hab
    simp [FederalTaxEngine.bracketLoop]
  | cons br rest ih =>
    intro a b prev hab
    have hb : 0 ≤ br.rate := ratesNonneg_head hr
    rw [FederalTaxEngine.bracketLoop, FederalTaxEngine.bracketLoop]
    cases hu : br.upTo with
    | none =>
      exact mul_le_mul_of_nonneg_right (clamp0_mono (by linarith)) hb
    | some u =>
      dsimp
      have hamt : clamp0 (min a u - prev) ≤ clamp0 (min b u - prev) :=
        clamp0_mono (by have := min_le_min hab (le_refl u); linarith)
      split_ifs with h1 h2 h2
      · exact mul_le_mul_of_nonneg_right hamt hb
      · have := fedBracketLoop_nonneg rest (ratesNonneg_tail hr) b u
        have := mul_le_mul_of_nonneg_right hamt hb
        linarith
      · linarith
      · push_neg at h1 h2
        have heq : min a u = min b u := by
          rw [min_eq_right (le_of_lt h1), min_eq_right (le_of_lt h2)]
        rw [heq]
        have := ih (ratesNonneg_tail hr) (a := a) (b := b) u hab
        linarith

/-- C5: for a fixed bracket table with ascending caps (last possibly
unbounded) and non-negative rates, each of the three bracket tax calculators
— `applyBrackets` of the state engine, the bracket loop of
`calcTaxFromBrackets` of the quarterly route, and the bracket loop of
`calcFederalIncomeTax` — is monotone: `a ≤ b` implies `tax(a) ≤ tax(b)`. -/
theorem bracketTax_monotone (bs : List Bracket) (a b : ℚ)
    (hr : ratesNonneg bs) (hasc : capsAscending bs) (hab : a ≤ b) :
    (applyBrackets a bs).1 ≤ (applyBrackets b bs).1 ∧
    EstimatedQuarterly.calcTaxFromBrackets (some bs) a ≤
      EstimatedQuarterly.calcTaxFromBrackets (some bs) b ∧
    FederalTaxEngine.bracketLoop a bs 0 ≤ FederalTaxEngine.bracketLoop b bs 0 := by
  refine ⟨?_, ?_, ?_⟩
  · unfold applyBrackets
    exact round2_mono (applyBracketsLoop_mono bs hr 0 hab)
  · cases bs with
    | nil => simp [EstimatedQuarterly.calcTaxFromBrackets]
    | cons br rest =>
      unfold EstimatedQuarterly.calcTaxFromBrackets
      exact round2_mono (calcTaxLoop_mono (br :: rest) hr 0 hab)
  · exact fedBracketLoop_mono bs hr 0 hab

/-- The bracket table of the spec's worked example. -/
def c5brackets : List Bracket :=
  [ { upTo := some 11600, rate := 0.10 },
    { upTo := some 47150, rate := 0.12 },
    { upTo := none, rate := 0.22 } ]

/-- Witness for C5 at the spec's example table with 30000 ≤ 50000. -/
theorem bracketTax_monotone_witness :
    ratesNonneg c5brackets ∧ capsAscending c5brackets ∧
    ((applyBrackets 30000 c5brackets).1 ≤ (applyBrackets 50000 c5brackets).1 ∧
    EstimatedQuarterly.calcTaxFromBrackets (some c5brackets) 30000 ≤
      EstimatedQuarterly.calcTaxFromBrackets (some c5brackets) 50000 ∧
    FederalTaxEngine.bracketLoop 30000 c5brackets 0 ≤
      FederalTaxEngine.bracketLoop 50000 c5brackets 0) :=
  ⟨by intro br hbr; fin_cases hbr <;> norm_num [c5brackets],
   by norm_num [capsAscending, c5brackets],
   bracketTax_monotone c5brackets 30000 50000
     (by intro br hbr; fin_cases hbr <;> norm_num [c5brackets])
     (by norm_num [capsAscending, c5brackets]) (by norm_num)⟩

end ClaimC5

/-! # Shared analysis of `compareResultsNew` (claims C2 and C4) -/

section CompareAnalysis

open StateTaxEngine SimulationService

/-- The comparison record `compareResultsNew` builds once the two state-tax
amounts are known. -/
def mkCompareOut (inputs : CalcInput) (standardDeduction w2State seStateTax : ℚ) :
    CompareOut :=
  let w2FederalTax := calcFederalTaxW2_single_placeholder inputs.w2Salary standardDeduction
  let w2Fica := calcFicaTax_placeholder inputs.w2Salary
  let w2Total := w2FederalTax + w2State + w2Fica
  let w2Net := inputs.w2Salary - w2Total
  let netProfit := max 0 (inputs.income1099 - inputs.expenses)
  let seTax := calcSeTax_placeholder netProfit
  let agi := max 0 (netProfit - halfSeDeduction netProfit)
  let taxableFederal := max 0 (agi - standardDeduction)
  let seFederalTax := calcFederalTaxFromTaxableIncome_single_placeholder taxableFederal
  let seTotal := seFederalTax + seStateTax + seTax
  let seNet := inputs.income1099 - inputs.expenses - seTotal
  { w2 := { federalTax := w2FederalTax, stateTax := w2State, ficaTax := w2Fica,
            netIncome := w2Net,
            effectiveTaxRate := if inputs.w2Salary > 0 then w2Total / inputs.w2Salary else 0 },
    se := { federalTax := seFederalTax, stateTax := seStateTax, seTax := seTax,
            netIncome := seNet,
            effectiveTaxRate := if netProfit > 0 then seTotal / netProfit else 0 },
    annualDifference := seNet - w2Net,
    monthlyDifference := (seNet - w2Net) / 12 }

/-- `compareResultsNew` unfolded into its two fallible state-tax calls. -/
theorem compareResultsNew_eq (cfg : Cfg) (inputs : CalcInput) (year : ℤ)
    (standardDeduction : ℚ) :
    compareResultsNew cfg inputs year standardDeduction =
      (calcStateTaxFromTaxableBase cfg.lookup
        { year := year, state := inputs.state, filingStatus := .single,
          taxableBase := (computeTaxableStateIncome cfg.baseRules year inputs.state
            .single inputs.w2Salary).taxableStateIncome }).bind fun w2StateRes =>
      (calcStateTaxFromTaxableBase cfg.lookup
        { year := year, state := inputs.state, filingStatus := .single,
          taxableBase := (computeTaxableStateIncome cfg.baseRules year inputs.state
            .single (max 0 (max 0 (inputs.income1099 - inputs.expenses) -
              halfSeDeduction (max 0 (inputs.income1099 - inputs.expenses))))).taxableStateIncome }).bind
        fun seStateRes =>
      .ok (mkCompareOut inputs standardDeduction w2StateRes.tax seStateRes.tax) := rfl

/-- In a no-income-tax jurisdiction the comparison always succeeds, with both
state-tax amounts 0. -/
theorem compareResultsNew_noTaxState (cfg : Cfg) (inputs : CalcInput) (year : ℤ)
    (standardDeduction : ℚ)
    (h : normalizeState inputs.state ∈ NO_INCOME_TAX_STATES) :
    compareResultsNew cfg inputs year standardDeduction =
      .ok (mkCompareOut inputs standardDeduction 0 0) := by
  rw [compareResultsNew_eq]
  rw [calcStateTaxFromTaxableBase_noTaxState cfg.lookup _ h,
    calcStateTaxFromTaxableBase_noTaxState cfg.lookup _ h]
  rfl

end CompareAnalysis

/-! # Claim C2 -/

section ClaimC2

open StateTaxEngine SimulationService

/-- Configured rates of a state ruleset are non-negative (true of real tax
tables; needed because the engine is quantified over injected rulesets). -/
def stateRatesOK (rules : StateTaxRules) : Prop :=
  (∀ rate, rules.flatRate = some rate → 0 ≤ rate) ∧
  (∀ fs bs, rules.brackets fs = some bs → ratesNonneg bs)

theorem calcProgressiveTaxLoop_nonneg (bs : List Bracket) (hr : ratesNonneg bs) :
    ∀ r c, 0 ≤ calcProgressiveTaxLoop bs r c := by
  induction bs with
  | nil =>
    intro r c
    simp [calcProgressiveTaxLoop]
  | cons b rest ih =>
    intro r c
    have hb : 0 ≤ b.rate := ratesNonneg_head hr
    rw [calcProgressiveTaxLoop]
    split_ifs with h0
    · exact le_refl 0
    · push_neg at h0
      cases hu : b.upTo with
      | none =>
        dsimp
        have ht := ih (ratesNonneg_tail hr) (r - min r r) c
        have hm : 0 ≤ min r r * b.rate :=
          mul_nonneg (by rw [min_self]; linarith) hb
        linarith
      | some cap =>
        dsimp
        have ht := ih (ratesNonneg_tail hr) (r - min r (max 0 (cap - c))) cap
        have hband : (0:ℚ) ≤ max 0 (cap - c) := le_max_left 0 _
        have hm : 0 ≤ min r (max 0 (cap - c)) * b.rate :=
          mul_nonneg (le_min (le_of_lt h0) hband) hb
        linarith

theorem fedRatesNonneg : ratesNonneg FEDERAL_BRACKETS_2026_SINGLE := by
  intro br hbr
  fin_cases hbr <;> norm_num [FEDERAL_BRACKETS_2026_SINGLE]

theorem calcFederalPlaceholder_nonneg (t : ℚ) :
    0 ≤ calcFederalTaxFromTaxableIncome_single_placeholder t :=
  calcProgressiveTaxLoop_nonneg _ fedRatesNonneg _ _

theorem calcFicaTax_placeholder_nonneg {w2 : ℚ} (h : 0 ≤ w2) :
    0 ≤ calcFicaTax_placeholder w2 := by
  unfold calcFicaTax_placeholder
  have h1 : (0:ℚ) ≤ min w2 168600 * 0.062 :=
    mul_nonneg (le_min h (by norm_num)) (by norm_num)
  have h2 : (0:ℚ) ≤ w2 * 0.0145 := mul_nonneg h (by norm_num)
  have h3 : (0:ℚ) ≤ max 0 (w2 - 200000) * 0.009 :=
    mul_nonneg (le_max_left 0 _) (by norm_num)
  linarith

theorem calcSeTax_placeholder_nonneg (np : ℚ) : 0 ≤ calcSeTax_placeholder np := by
  unfold calcSeTax_placeholder seTaxPlaceholderSs seTaxPlaceholderMed
    seTaxPlaceholderAdd
  have hnp : (0:ℚ) ≤ max 0 np := le_max_left 0 np
  have h1 : (0:ℚ) ≤ min (max 0 np * 0.9235) 168600 * 0.124 :=
    mul_nonneg (le_min (by positivity) (by norm_num)) (by norm_num)
  have h2 : (0:ℚ) ≤ max 0 np * 0.9235 * 0.029 := by positivity
  have h3 : (0:ℚ) ≤ max 0 (max 0 np * 0.9235 - 200000) * 0.009 :=
    mul_nonneg (le_max_left 0 _) (by norm_num)
  linarith

theorem fromBaseLoop_tax_nonneg (tb : ℚ) (bs : List Bracket) (hr : ratesNonneg bs) :
    ∀ prev, 0 ≤ (fromBaseLoop tb bs prev).1 := by
  induction bs with
  | nil =>
    intro prev
    simp [fromBaseLoop]
  | cons b rest ih =>
    intro prev
    have hb : 0 ≤ b.rate := ratesNonneg_head hr
    rw [fromBaseLoop]
    dsimp
    split_ifs with h0
    · exact ih (ratesNonneg_tail hr) _
    · push_neg at h0
      cases hu : b.upTo with
      | none => simp [mul_nonneg (clamp0_nonneg _) hb]
      | some u =>
        dsimp
        split_ifs with h1
        · simp [mul_nonneg (clamp0_nonneg _) hb]
        · rcases hrec : fromBaseLoop tb rest u with ⟨t2, bd⟩
          have ht2 := ih (ratesNonneg_tail hr) u
          rw [hrec] at ht2
          dsimp at ht2 ⊢
          have := mul_nonneg (clamp0_nonneg (min tb u - prev)) hb
          linarith

theorem calcStateTaxFromTaxableBase_tax_nonneg
    (lookup : String → Option StateTaxRules) (input : StateTaxFromTaxableBaseInput)
    (hrates : ∀ s rules, lookup s = some rules → stateRatesOK rules)
    (res : StateTaxResult)
    (hok : calcStateTaxFromTaxableBase lookup input = .ok res) : 0 ≤ res.tax := by
  unfold calcStateTaxFromTaxableBase at hok
  by_cases hmem : normalizeState input.state ∈ NO_INCOME_TAX_STATES
  · rw [if_pos hmem] at hok
    simp only [Except.ok.injEq] at hok
    rw [← hok]
  · rw [if_neg hmem] at hok
    cases hlk : lookup (normalizeState input.state) with
    | none =>
      rw [hlk] at hok
      exact absurd hok (by simp)
    | some rules =>
      rw [hlk] at hok
      have hOK := hrates _ rules hlk
      dsimp at hok
      by_cases hinc : rules.hasIncomeTax = false
      · rw [if_pos hinc] at hok
        simp only [Except.ok.injEq] at hok
        rw [← hok]
      · rw [if_neg hinc] at hok
        rcases htt : rules.taxType with _ | tt
        all_goals rcases hfr : rules.flatRate with _ | rate
        all_goals rw [htt, hfr] at hok
        case neg.none.none | neg.none.some | neg.some.none =>
          first
          | (cases tt
             case flat =>
               simp only [Except.ok.injEq] at hok
               rw [← hok]
               exact round2_nonneg (mul_nonneg (clamp0_nonneg _) (hOK.1 rate hfr))
             case progressive =>
               simp only [Except.ok.injEq] at hok
               rw [← hok]
               dsimp
               refine round2_nonneg ?_
               refine fromBaseLoop_tax_nonneg _ _ ?_ 0
               rcases hbr : rules.brackets input.filingStatus with _ | bs
               · rcases hbr2 : rules.brackets .single with _ | bs2
                 · intro br hbrm
                   simp at hbrm
                 · exact hOK.2 .single bs2 hbr2
               · exact hOK.2 input.filingStatus bs hbr)
          | (simp only [Except.ok.injEq] at hok
             rw [← hok]
             dsimp
             refine round2_nonneg ?_
             refine fromBaseLoop_tax_nonneg _ _ ?_ 0
             rcases hbr : rules.brackets input.filingStatus with _ | bs
             · rcases hbr2 : rules.brackets .single with _ | bs2
               · intro br hbrm
                 simp at hbrm
               · exact hOK.2 .single bs2 hbr2
             · exact hOK.2 input.filingStatus bs hbr)
        case neg.some.some =>
          cases tt
          case flat =>
            simp only [Except.ok.injEq] at hok
            rw [← hok]
            exact round2_nonneg (mul_nonneg (clamp0_nonneg _) (hOK.1 rate hfr))
          case progressive =>
            simp only [Except.ok.injEq] at hok
            rw [← hok]
            dsimp
            refine round2_nonneg ?_
            refine fromBaseLoop_tax_nonneg _ _ ?_ 0
            rcases hbr : rules.brackets input.filingStatus with _ | bs
            · rcases hbr2 : rules.brackets .single with _ | bs2
              · intro br hbrm
                simp at hbrm
              · exact hOK.2 .single bs2 hbr2
            · exact hOK.2 input.filingStatus bs hbr

/-- C2 (amended): for every scenario comparison input with non-negative
w2Salary, income1099 and expenses, and state rules whose configured rates are
non-negative, every **tax** component of the returned result (federal, state,
FICA/SE) and both effective rates are non-negative; the `netIncome` fields,
however, are not clamped and can be negative — e.g. the 1099 net income is
`income1099 − expenses − taxes`, which is negative whenever expenses exceed
income1099. -/
theorem compareResults_taxes_nonneg (cfg : Cfg) (inputs : CalcInput)
    (year : ℤ) (standardDeduction : ℚ) (r : CompareOut)
    (hw2 : 0 ≤ inputs.w2Salary) (h1099 : 0 ≤ inputs.income1099)
    (hexp : 0 ≤ inputs.expenses)
    (hrates : ∀ s rules, cfg.lookup s = some rules → stateRatesOK rules)
    (hok : compareResultsNew cfg inputs year standardDeduction = .ok r) :
    0 ≤ r.w2.federalTax ∧ 0 ≤ r.w2.stateTax ∧ 0 ≤ r.w2.ficaTax ∧
    0 ≤ r.w2.effectiveTaxRate ∧
    0 ≤ r.se.federalTax ∧ 0 ≤ r.se.stateTax ∧ 0 ≤ r.se.seTax ∧
    0 ≤ r.se.effectiveTaxRate := by
  rw [compareResultsNew_eq] at hok
  cases h1 : calcStateTaxFromTaxableBase cfg.lookup
      { year := year, state := inputs.state, filingStatus := .single,
        taxableBase := (computeTaxableStateIncome cfg.baseRules year inputs.state
          .single inputs.w2Salary).taxableStateIncome } with
  | error e =>
    rw [h1] at hok
    exact absurd hok (by simp [Except.bind])
  | ok w2s =>
    rw [h1] at hok
    cases h2 : calcStateTaxFromTaxableBase cfg.lookup
        { year := year, state := inputs.state, filingStatus := .single,
          taxableBase := (computeTaxableStateIncome cfg.baseRules year inputs.state
            .single (max 0 (max 0 (inputs.income1099 - inputs.expenses) -
              halfSeDeduction (max 0 (inputs.income1099 - inputs.expenses))))).taxableStateIncome } with
    | error e =>
      rw [h2] at hok
      exact absurd hok (by simp [Except.bind])
    | ok ses =>
      rw [h2] at hok
      simp only [Except.bind, Except.ok.injEq] at hok
      subst hok
      have hw2state : 0 ≤ w2s.tax :=
        calcStateTaxFromTaxableBase_tax_nonneg cfg.lookup _ hrates w2s h1
      have hsestate : 0 ≤ ses.tax :=
        calcStateTaxFromTaxableBase_tax_nonneg cfg.lookup _ hrates ses h2
      have hfedw2 : 0 ≤ calcFederalTaxW2_single_placeholder inputs.w2Salary
          standardDeduction := calcFederalPlaceholder_nonneg _
      have hfica : 0 ≤ calcFicaTax_placeholder inputs.w2Salary :=
        calcFicaTax_placeholder_nonneg hw2
      have hfedse : 0 ≤ calcFederalTaxFromTaxableIncome_single_placeholder
          (max 0 (max 0 (max 0 (inputs.income1099 - inputs.expenses) -
            halfSeDeduction (max 0 (inputs.income1099 - inputs.expenses))) -
            standardDeduction)) := calcFederalPlaceholder_nonneg _
      have hse : 0 ≤ calcSeTax_placeholder (max 0 (inputs.income1099 - inputs.expenses)) :=
        calcSeTax_placeholder_nonneg _
      refine ⟨hfedw2, hw2state, hfica, ?_, hfedse, hsestate, hse, ?_⟩
      · dsimp [mkCompareOut]
        split_ifs with h
        · positivity
        · exact le_refl 0
      · dsimp [mkCompareOut]
        split_ifs with h
        · positivity
        · exact le_refl 0

/-- Data environment with no compiled state rulesets and an empty base
ruleset (sufficient for no-income-tax states). -/
def c2cfg : Cfg := { lookup := fun _ => none, baseRules := {} }

/-- The scenario input of the C2 counterexample: zero income, 100 of
expenses, in Texas. -/
def c2cexInputs : CalcInput :=
  { w2Salary := 0, income1099 := 0, state := "TX", expenses := 100 }

/-- Counterexample to C2 as stated: with non-negative inputs
(w2Salary = 0, income1099 = 0, expenses = 100, state TX) the returned 1099
`netIncome` is −100 < 0. -/
theorem compareResults_negative_netIncome_cex :
    compareResultsNew c2cfg c2cexInputs 2026 15000 =
      .ok (mkCompareOut c2cexInputs 15000 0 0) ∧
    (mkCompareOut c2cexInputs 15000 0 0).se.netIncome = -100 := by
  constructor
  · exact compareResultsNew_noTaxState c2cfg c2cexInputs 2026 15000 (by decide)
  · norm_num [mkCompareOut, c2cexInputs, calcSeTax_placeholder,
      seTaxPlaceholderSs, seTaxPlaceholderMed, seTaxPlaceholderAdd,
      halfSeDeduction, calcFederalTaxFromTaxableIncome_single_placeholder,
      calcProgressiveTax, calcProgressiveTaxLoop, FEDERAL_BRACKETS_2026_SINGLE]

/-- The scenario input of the C2 witness. -/
def c2wInputs : CalcInput :=
  { w2Salary := 50000, income1099 := 30000, state := "TX", expenses := 5000 }

/-- Witness for the amended C2 at a concrete no-income-tax-state input. -/
theorem compareResults_taxes_nonneg_witness :
    0 ≤ (mkCompareOut c2wInputs 15000 0 0).w2.federalTax ∧
    0 ≤ (mkCompareOut c2wInputs 15000 0 0).w2.stateTax ∧
    0 ≤ (mkCompareOut c2wInputs 15000 0 0).w2.ficaTax ∧
    0 ≤ (mkCompareOut c2wInputs 15000 0 0).w2.effectiveTaxRate ∧
    0 ≤ (mkCompareOut c2wInputs 15000 0 0).se.federalTax ∧
    0 ≤ (mkCompareOut c2wInputs 15000 0 0).se.stateTax ∧
    0 ≤ (mkCompareOut c2wInputs 15000 0 0).se.seTax ∧
    0 ≤ (mkCompareOut c2wInputs 15000 0 0).se.effectiveTaxRate :=
  compareResults_taxes_nonneg c2cfg c2wInputs 2026 15000
    (mkCompareOut c2wInputs 15000 0 0)
    (by norm_num [c2wInputs]) (by norm_num [c2wInputs]) (by norm_num [c2wInputs])
    (fun s rules h => nomatch h)
    (compareResultsNew_noTaxState c2cfg c2wInputs 2026 15000 (by decide))

end ClaimC2

/-! # Claim C4 -/

section ClaimC4

open StateTaxEngine SimulationService

/-- The 1099 net income computed by the comparison in a jurisdiction without
state income tax, as a function of gross 1099 income. -/
def seNetNoStateTax (expenses standardDeduction income : ℚ) : ℚ :=
  income - expenses -
    (calcFederalTaxFromTaxableIncome_single_placeholder
      (max 0 (max 0 (max 0 (income - expenses) -
        halfSeDeduction (max 0 (income - expenses))) - standardDeduction)) +
     0 + calcSeTax_placeholder (max 0 (income - expenses)))

/-- The W-2 net income in a jurisdiction without state income tax. -/
def w2NetNoStateTax (w2Salary standardDeduction : ℚ) : ℚ :=
  w2Salary - (calcFederalTaxW2_single_placeholder w2Salary standardDeduction +
    0 + calcFicaTax_placeholder w2Salary)

theorem mkCompareOut_seNet (inputs : CalcInput) (sd : ℚ) :
    (mkCompareOut inputs sd 0 0).se.netIncome =
      seNetNoStateTax inputs.expenses sd inputs.income1099 := rfl

theorem mkCompareOut_w2Net (inputs : CalcInput) (sd : ℚ) :
    (mkCompareOut inputs sd 0 0).w2.netIncome =
      w2NetNoStateTax inputs.w2Salary sd := rfl

/-- The doubling phase as a pure function. -/
def doublePure (f : ℚ → ℚ) (target : ℚ) : Nat → ℚ → ℚ
  | 0, high => high
  | n + 1, high => if f high ≥ target then high else doublePure f target n (high * 2)

/-- The bisection phase as a pure function on `(low, high, mid)`. -/
def bisectPure (f : ℚ → ℚ) (target : ℚ) : Nat → ℚ × ℚ × ℚ → ℚ × ℚ × ℚ
  | 0, s => s
  | n + 1, s =>
    let mid := (s.1 + s.2.1) / 2
    if f mid ≥ target then bisectPure f target n (s.1, mid, mid)
    else bisectPure f target n (mid, s.2.1, mid)

theorem doubleHigh_noTaxState (cfg : Cfg) (p : BreakEvenParams)
    (h : normalizeState p.state ∈ NO_INCOME_TAX_STATES) (target : ℚ) :
    ∀ (n : Nat) (high : ℚ),
      doubleHigh cfg p target n high =
        .ok (doublePure (seNetNoStateTax p.expenses p.standardDeduction)
          target n high) := by
  intro n
  induction n with
  | zero => intro high; rfl
  | succ n ih =>
    intro high
    rw [doubleHigh, doublePure,
      compareResultsNew_noTaxState _ _ _ _ h]
    show (if (mkCompareOut _ _ 0 0).se.netIncome ≥ target then _ else _) = _
    rw [mkCompareOut_seNet]
    split_ifs with hc
    · rfl
    · exact ih (high * 2)

theorem bisectLoop_noTaxState (cfg : Cfg) (p : BreakEvenParams)
    (h : normalizeState p.state ∈ NO_INCOME_TAX_STATES) (target : ℚ) :
    ∀ (n : Nat) (s : ℚ × ℚ × ℚ),
      bisectLoop cfg p target n s =
        .ok (bisectPure (seNetNoStateTax p.expenses p.standardDeduction)
          target n s) := by
  intro n
  induction n with
  | zero => intro s; rfl
  | succ n ih =>
    intro s
    rw [bisectLoop, bisectPure,
      compareResultsNew_noTaxState _ _ _ _ h]
    show (if (mkCompareOut _ _ 0 0).se.netIncome ≥ target then _ else _) = _
    rw [mkCompareOut_seNet]
    split_ifs with hc
    · exact ih _
    · exact ih _

/-- In a no-income-tax jurisdiction, `findBreakEven` reduces to the pure
doubling-then-bisection search on `seNetNoStateTax` targeting
`w2NetNoStateTax`. -/
theorem findBreakEven_noTaxState (cfg : Cfg) (p : BreakEvenParams)
    (h : normalizeState p.state ∈ NO_INCOME_TAX_STATES) :
    findBreakEven cfg p =
      .ok (bisectPure (seNetNoStateTax p.expenses p.standardDeduction)
        (w2NetNoStateTax p.w2Salary p.standardDeduction) 30
        (0, doublePure (seNetNoStateTax p.expenses p.standardDeduction)
          (w2NetNoStateTax p.w2Salary p.standardDeduction) 12
          (max 1 (p.w2Salary * 5)), 0)).2.2 := by
  unfold findBreakEven
  rw [compareResultsNew_noTaxState _ _ _ _ h]
  show (doubleHigh cfg p ((mkCompareOut _ _ 0 0).w2.netIncome) 12 _).bind _ = _
  rw [mkCompareOut_w2Net]
  rw [doubleHigh_noTaxState cfg p h]
  show (bisectLoop cfg p _ 30 _).bind _ = _
  rw [bisectLoop_noTaxState cfg p h]
  rfl

end ClaimC4

section ClaimC4Toolkit

open StateTaxEngine SimulationService

theorem max0_lip {a b : ℚ} (h : a ≤ b) : max 0 b - max 0 a ≤ b - a := by
  rcases le_total a 0 with h1 | h1 <;> rcases le_total b 0 with h2 | h2
  · rw [max_eq_left h1, max_eq_left h2]
    linarith
  · rw [max_eq_left h1, max_eq_right h2]
    linarith
  · have ha0 : a = 0 := le_antisymm (h.trans h2) h1
    have hb0 : b = 0 := le_antisymm h2 (ha0 ▸ h)
    simp [ha0, hb0]
  · rw [max_eq_right h1, max_eq_right h2]

theorem min_lip_left {a b c : ℚ} (h : a ≤ b) : min b c - min a c ≤ b - a := by
  rcases le_total b c with h1 | h1
  · rw [min_eq_left h1, min_eq_left (h.trans h1)]
  · rcases le_total a c with h2 | h2
    · rw [min_eq_right h1, min_eq_left h2]
      linarith
    · rw [min_eq_right h1, min_eq_right h2]
      linarith

theorem calcProgressiveTaxLoop_zero (bs : List StateTaxEngine.Bracket) (c : ℚ) :
    calcProgressiveTaxLoop bs 0 c = 0 := by
  cases bs with
  | nil => rfl
  | cons b rest => rw [calcProgressiveTaxLoop, if_pos (le_refl (0:ℚ))]

/-- All rates bounded above by `L`. -/
def ratesBounded (L : ℚ) (bs : List StateTaxEngine.Bracket) : Prop := ∀ br ∈ bs, br.rate ≤ L

theorem calcProgressiveTaxLoop_le (L : ℚ) (hL : 0 ≤ L) (bs : List StateTaxEngine.Bracket)
    (hr : ratesBounded L bs) :
    ∀ r c, calcProgressiveTaxLoop bs r c ≤ L * max 0 r := by
  induction bs with
  | nil =>
    intro r c
    simp only [calcProgressiveTaxLoop]
    exact mul_nonneg hL (le_max_left 0 r)
  | cons b rest ih =>
    intro r c
    have hb : b.rate ≤ L := hr b (List.mem_cons_self b rest)
    have hrest : ratesBounded L rest := fun br hm => hr br (List.mem_cons_of_mem b hm)
    rw [calcProgressiveTaxLoop]
    split_ifs with h0
    · exact mul_nonneg hL (le_max_left 0 r)
    · push_neg at h0
      rw [max_eq_right h0.le]
      cases hu : b.upTo with
      | none =>
        dsimp
        simp only [min_self, sub_self, calcProgressiveTaxLoop_zero]
        have := mul_le_mul_of_nonneg_left hb h0.le
        linarith
      | some cap =>
        dsimp
        have hband0 : (0:ℚ) ≤ max 0 (cap - c) := le_max_left 0 _
        have hamt0 : (0:ℚ) ≤ min r (max 0 (cap - c)) := le_min h0.le hband0
        have hamtr : min r (max 0 (cap - c)) ≤ r := min_le_left _ _
        have hrec := ih hrest (r - min r (max 0 (cap - c))) cap
        rw [max_eq_right (show (0:ℚ) ≤ r - min r (max 0 (cap - c)) by linarith)] at hrec
        have h1 := mul_le_mul_of_nonneg_left hb hamt0
        linarith

theorem calcProgressiveTaxLoop_mono (bs : List StateTaxEngine.Bracket) (hr : ratesNonneg bs) :
    ∀ {ra rb : ℚ} (c : ℚ), ra ≤ rb →
      calcProgressiveTaxLoop bs ra c ≤ calcProgressiveTaxLoop bs rb c := by
  induction bs with
  | nil =>
    intro ra rb c h
    simp [calcProgressiveTaxLoop]
  | cons b rest ih =>
    intro ra rb c h
    have hb : 0 ≤ b.rate := ratesNonneg_head hr
    rw [calcProgressiveTaxLoop, calcProgressiveTaxLoop]
    by_cases hra : ra ≤ 0
    · rw [if_pos hra]
      by_cases hrb : rb ≤ 0
      · rw [if_pos hrb]
      · rw [if_neg hrb]
        have hnn := calcProgressiveTaxLoop_nonneg (b :: rest) hr rb c
        rw [calcProgressiveTaxLoop, if_neg hrb] at hnn
        exact hnn
    · have hrb : ¬ rb ≤ 0 := fun hc => hra (h.trans hc)
      rw [if_neg hra, if_neg hrb]
      push_neg at hra hrb
      cases hu : b.upTo with
      | none =>
        dsimp
        simp only [min_self, sub_self, calcProgressiveTaxLoop_zero]
        have := mul_le_mul_of_nonneg_right h hb
        linarith
      | some cap =>
        dsimp
        have hmin : min ra (max 0 (cap - c)) ≤ min rb (max 0 (cap - c)) :=
          min_le_min h (le_refl _)
        have hlip : min rb (max 0 (cap - c)) - min ra (max 0 (cap - c)) ≤ rb - ra :=
          min_lip_left h
        have hrec := ih (ratesNonneg_tail hr) cap
          (show ra - min ra (max 0 (cap - c)) ≤ rb - min rb (max 0 (cap - c)) by linarith)
        have hmul := mul_le_mul_of_nonneg_right hmin hb
        linarith

theorem calcProgressiveTaxLoop_lip (L : ℚ) (hL : 0 ≤ L) (bs : List StateTaxEngine.Bracket)
    (hr : ratesBounded L bs) :
    ∀ {ra rb : ℚ} (c : ℚ), ra ≤ rb →
      calcProgressiveTaxLoop bs rb c - calcProgressiveTaxLoop bs ra c ≤
        L * (rb - ra) := by
  induction bs with
  | nil =>
    intro ra rb c h
    simp only [calcProgressiveTaxLoop]
    have := mul_nonneg hL (sub_nonneg.mpr h)
    linarith
  | cons b rest ih =>
    intro ra rb c h
    have hb : b.rate ≤ L := hr b (List.mem_cons_self b rest)
    have hrest : ratesBounded L rest := fun br hm => hr br (List.mem_cons_of_mem b hm)
    rw [calcProgressiveTaxLoop, calcProgressiveTaxLoop]
    by_cases hra : ra ≤ 0
    · rw [if_pos hra]
      by_cases hrb : rb ≤ 0
      · rw [if_pos hrb]
        have := mul_nonneg hL (sub_nonneg.mpr h)
        linarith
      · rw [if_neg hrb]
        push_neg at hrb
        have hle := calcProgressiveTaxLoop_le L hL (b :: rest) hr rb c
        rw [calcProgressiveTaxLoop, if_neg (not_le.mpr hrb), max_eq_right hrb.le] at hle
        have h2 := mul_nonneg hL (neg_nonneg.mpr hra)
        linarith
    · have hrb' : ¬ rb ≤ 0 := fun hc => hra (h.trans hc)
      rw [if_neg hra, if_neg hrb']
      cases hu : b.upTo with
      | none =>
        dsimp
        simp only [min_self, sub_self, calcProgressiveTaxLoop_zero]
        have := mul_le_mul_of_nonneg_right hb (sub_nonneg.mpr h)
        linarith
      | some cap =>
        dsimp
        have hminm : min ra (max 0 (cap - c)) ≤ min rb (max 0 (cap - c)) :=
          min_le_min h (le_refl _)
        have hminl : min rb (max 0 (cap - c)) - min ra (max 0 (cap - c)) ≤ rb - ra :=
          min_lip_left h
        have hrec := ih hrest cap
          (show ra - min ra (max 0 (cap - c)) ≤ rb - min rb (max 0 (cap - c)) by linarith)
        have hmul := mul_le_mul_of_nonneg_right hb (sub_nonneg.mpr hminm)
        linarith

theorem fedRatesBounded : ratesBounded 0.37 FEDERAL_BRACKETS_2026_SINGLE := by
  intro br hbr
  fin_cases hbr <;> norm_num [FEDERAL_BRACKETS_2026_SINGLE]

theorem calcFederalPlaceholder_mono {a b : ℚ} (h : a ≤ b) :
    calcFederalTaxFromTaxableIncome_single_placeholder a ≤
      calcFederalTaxFromTaxableIncome_single_placeholder b := by
  unfold calcFederalTaxFromTaxableIncome_single_placeholder calcProgressiveTax
  exact calcProgressiveTaxLoop_mono _ fedRatesNonneg 0
    (max_le_max (le_refl 0) (max_le_max (le_refl 0) h))

theorem calcFederalPlaceholder_lip {a b : ℚ} (h : a ≤ b) :
    calcFederalTaxFromTaxableIncome_single_placeholder b -
      calcFederalTaxFromTaxableIncome_single_placeholder a ≤ 0.37 * (b - a) := by
  unfold calcFederalTaxFromTaxableIncome_single_placeholder calcProgressiveTax
  have h1 : max 0 a ≤ max 0 b := max_le_max (le_refl 0) h
  have h2 : max 0 (max 0 a) ≤ max 0 (max 0 b) := max_le_max (le_refl 0) h1
  have l1 : max 0 b - max 0 a ≤ b - a := max0_lip h
  have l2 : max 0 (max 0 b) - max 0 (max 0 a) ≤ max 0 b - max 0 a := max0_lip h1
  have hml := calcProgressiveTaxLoop_lip 0.37 (by norm_num) _ fedRatesBounded 0 h2
  linarith

theorem calcSeTax_placeholder_mono {a b : ℚ} (h : a ≤ b) :
    calcSeTax_placeholder a ≤ calcSeTax_placeholder b := by
  unfold calcSeTax_placeholder seTaxPlaceholderSs seTaxPlaceholderMed
    seTaxPlaceholderAdd
  have hm : max 0 a ≤ max 0 b := max_le_max (le_refl 0) h
  have h1 : min (max 0 a * 0.9235) 168600 ≤ min (max 0 b * 0.9235) 168600 :=
    min_le_min (by linarith) (le_refl _)
  have h2 : max 0 (max 0 a * 0.9235 - 200000) ≤ max 0 (max 0 b * 0.9235 - 200000) :=
    max_le_max (le_refl 0) (by linarith)
  have e1 := mul_le_mul_of_nonneg_right h1 (show (0:ℚ) ≤ 0.124 by norm_num)
  have e3 := mul_le_mul_of_nonneg_right h2 (show (0:ℚ) ≤ 0.009 by norm_num)
  linarith

theorem calcSeTax_placeholder_lip {a b : ℚ} (h : a ≤ b) :
    calcSeTax_placeholder b - calcSeTax_placeholder a ≤ 0.15 * (b - a) := by
  unfold calcSeTax_placeholder seTaxPlaceholderSs seTaxPlaceholderMed
    seTaxPlaceholderAdd
  have hm0 : max 0 a ≤ max 0 b := max_le_max (le_refl 0) h
  have hm : max 0 b - max 0 a ≤ b - a := max0_lip h
  have l1 : min (max 0 b * 0.9235) 168600 - min (max 0 a * 0.9235) 168600 ≤
      max 0 b * 0.9235 - max 0 a * 0.9235 := min_lip_left (by linarith)
  have l3 : max 0 (max 0 b * 0.9235 - 200000) - max 0 (max 0 a * 0.9235 - 200000) ≤
      (max 0 b * 0.9235 - 200000) - (max 0 a * 0.9235 - 200000) := max0_lip (by linarith)
  linarith

/-- `seNetNoStateTax` is monotone and 1-Lipschitz in the gross 1099 income:
the marginal combined placeholder rate `0.37 + 0.15` stays below 1. -/
theorem seNetNoStateTax_mono_lip (e sd : ℚ) {a b : ℚ} (h : a ≤ b) :
    seNetNoStateTax e sd a ≤ seNetNoStateTax e sd b ∧
      seNetNoStateTax e sd b - seNetNoStateTax e sd a ≤ b - a := by
  unfold seNetNoStateTax halfSeDeduction
  have hnp : max 0 (a - e) ≤ max 0 (b - e) :=
    max_le_max (le_refl 0) (by linarith)
  have hnpl : max 0 (b - e) - max 0 (a - e) ≤ b - a := by
    have := max0_lip (show a - e ≤ b - e by linarith)
    linarith
  have hse := calcSeTax_placeholder_mono hnp
  have hsel := calcSeTax_placeholder_lip hnp
  have hagiarg : max 0 (a - e) - calcSeTax_placeholder (max 0 (a - e)) / 2 ≤
      max 0 (b - e) - calcSeTax_placeholder (max 0 (b - e)) / 2 := by linarith
  have hagi : max 0 (max 0 (a - e) - calcSeTax_placeholder (max 0 (a - e)) / 2) ≤
      max 0 (max 0 (b - e) - calcSeTax_placeholder (max 0 (b - e)) / 2) :=
    max_le_max (le_refl 0) hagiarg
  have hagil := max0_lip hagiarg
  have ht : max 0 (max 0 (max 0 (a - e) -
        calcSeTax_placeholder (max 0 (a - e)) / 2) - sd) ≤
      max 0 (max 0 (max 0 (b - e) -
        calcSeTax_placeholder (max 0 (b - e)) / 2) - sd) :=
    max_le_max (le_refl 0) (sub_le_sub_right hagi sd)
  have htl := max0_lip (sub_le_sub_right hagi sd)
  have hfed := calcFederalPlaceholder_mono ht
  have hfedl := calcFederalPlaceholder_lip ht
  constructor
  · linarith
  · linarith

end ClaimC4Toolkit

section ClaimC4Bisect

open StateTaxEngine SimulationService

/-- Invariant of the bisection loop for a monotone `f` with a bracketed
target: the bracket stays valid, halves in width each step, and the
returned midpoint is one of the two endpoints. -/
theorem bisectPure_invariant (f : ℚ → ℚ) (target : ℚ) :
    ∀ (n : Nat) (low high mid : ℚ), low ≤ high → f low ≤ target → target ≤ f high →
      (mid = low ∨ mid = high) →
      (bisectPure f target n (low, high, mid)).1 ≤
        (bisectPure f target n (low, high, mid)).2.1 ∧
      f (bisectPure f target n (low, high, mid)).1 ≤ target ∧
      target ≤ f (bisectPure f target n (low, high, mid)).2.1 ∧
      (bisectPure f target n (low, high, mid)).2.1 -
        (bisectPure f target n (low, high, mid)).1 = (high - low) / 2 ^ n ∧
      ((bisectPure f target n (low, high, mid)).2.2 =
         (bisectPure f target n (low, high, mid)).1 ∨
       (bisectPure f target n (low, high, mid)).2.2 =
         (bisectPure f target n (low, high, mid)).2.1) := by
  intro n
  induction n with
  | zero =>
    intro low high mid hlh hfl hfh hm
    refine ⟨hlh, hfl, hfh, by norm_num [bisectPure], ?_⟩
    rcases hm with rfl | rfl
    · exact Or.inl rfl
    · exact Or.inr rfl
  | succ n ih =>
    intro low high mid hlh hfl hfh hm
    rw [bisectPure]
    dsimp only
    split_ifs with hc
    · have hres := ih low ((low + high) / 2) ((low + high) / 2)
        (by linarith) hfl hc (Or.inr rfl)
      refine ⟨hres.1, hres.2.1, hres.2.2.1, ?_, hres.2.2.2.2⟩
      rw [hres.2.2.2.1, pow_succ]
      ring
    · push_neg at hc
      have hres := ih ((low + high) / 2) high ((low + high) / 2)
        (by linarith) hc.le hfh (Or.inl rfl)
      refine ⟨hres.1, hres.2.1, hres.2.2.1, ?_, hres.2.2.2.2⟩
      rw [hres.2.2.2.1, pow_succ]
      ring

/-- The doubling loop stops at once when the current bound already meets
the target. -/
theorem doublePure_stop {f : ℚ → ℚ} {target high : ℚ} (hge : f high ≥ target)
    {n : Nat} (hn : 0 < n) : doublePure f target n high = high := by
  cases n with
  | zero => exact absurd hn (by norm_num)
  | succ n => rw [doublePure, if_pos hge]

theorem doublePure_ge_one (f : ℚ → ℚ) (target : ℚ) :
    ∀ (n : Nat) (high : ℚ), 1 ≤ high → 1 ≤ doublePure f target n high := by
  intro n
  induction n with
  | zero => intro high h1; exact h1
  | succ n ih =>
    intro high h1
    rw [doublePure]
    split_ifs with hc
    · exact h1
    · exact ih (high * 2) (by linarith)

/-- If the net income stays below the target at every probed bound, the
doubling loop runs to exhaustion and returns `high * 2 ^ n`. -/
theorem doublePure_allBelow {f : ℚ → ℚ} {target : ℚ} :
    ∀ (n : Nat) (high : ℚ), (∀ k : Nat, k < n → f (high * 2 ^ k) < target) →
      doublePure f target n high = high * 2 ^ n := by
  intro n
  induction n with
  | zero =>
    intro high _
    rw [doublePure, pow_zero, mul_one]
  | succ n ih =>
    intro high h
    rw [doublePure]
    have h0 : f high < target := by
      have := h 0 (Nat.succ_pos n)
      rwa [pow_zero, mul_one] at this
    rw [if_neg (not_le.mpr h0)]
    rw [ih (high * 2) (fun k hk => by
      have heq : high * 2 * 2 ^ k = high * 2 ^ (k + 1) := by ring
      rw [heq]
      exact h (k + 1) (by omega))]
    ring

/-- If the net income stays below the target on the whole initial bracket,
every bisection step moves the lower bound up and the final midpoint is
`high - (high - low) / 2 ^ n`, pinned near the untouched upper bound. -/
theorem bisectPure_allBelow (f : ℚ → ℚ) (target : ℚ) :
    ∀ (n : Nat) (low mid high : ℚ), low < high →
      (∀ x, low ≤ x → x < high → f x < target) →
      bisectPure f target (n + 1) (low, high, mid) =
        (high - (high - low) / 2 ^ (n + 1), high,
         high - (high - low) / 2 ^ (n + 1)) := by
  intro n
  induction n with
  | zero =>
    intro low mid high hlh hall
    rw [bisectPure]
    dsimp only
    have hmid : f ((low + high) / 2) < target := hall _ (by linarith) (by linarith)
    rw [if_neg (not_le.mpr hmid)]
    rw [bisectPure]
    simp only [Prod.mk.injEq]
    refine ⟨by ring, trivial, by ring⟩
  | succ n ih =>
    intro low mid high hlh hall
    rw [bisectPure]
    dsimp only
    have hmid : f ((low + high) / 2) < target := hall _ (by linarith) (by linarith)
    rw [if_neg (not_le.mpr hmid)]
    rw [ih ((low + high) / 2) ((low + high) / 2) high (by linarith)
      (fun x hx1 hx2 => hall x (by linarith) hx2)]
    have heq : high - (high - (low + high) / 2) / 2 ^ (n + 1) =
        high - (high - low) / 2 ^ (n + 1 + 1) := by
      rw [pow_succ, pow_succ]
      ring
    rw [heq]

end ClaimC4Bisect

section ClaimC4Main

open StateTaxEngine SimulationService

theorem calcSeTax_placeholder_zero : calcSeTax_placeholder 0 = 0 := by
  norm_num [calcSeTax_placeholder, seTaxPlaceholderSs, seTaxPlaceholderMed,
    seTaxPlaceholderAdd, min_def, max_def]

theorem calcFederalPlaceholder_zero :
    calcFederalTaxFromTaxableIncome_single_placeholder 0 = 0 := by
  unfold calcFederalTaxFromTaxableIncome_single_placeholder calcProgressiveTax
  rw [max_self, max_self, calcProgressiveTaxLoop_zero]

/-- With 1000000 of expenses and gross 1099 income `h ≤ 1000000`, the net
profit clamps to 0, every 1099-side tax vanishes, and the 1099 net income
is just `h - 1000000`. -/
theorem seNet_expensesDominate (h : ℚ) (hle : h ≤ 1000000) :
    seNetNoStateTax 1000000 15000 h = h - 1000000 := by
  unfold seNetNoStateTax halfSeDeduction
  rw [max_eq_left (show h - 1000000 ≤ 0 by linarith)]
  rw [calcSeTax_placeholder_zero]
  norm_num [max_def, calcFederalPlaceholder_zero]

theorem w2Net_zeroSalary : w2NetNoStateTax 0 15000 = 0 := by
  unfold w2NetNoStateTax calcFederalTaxW2_single_placeholder calcFicaTax_placeholder
  norm_num [max_def, min_def, calcFederalPlaceholder_zero]

theorem seNet_zeroIncome : seNetNoStateTax 0 15000 0 = 0 := by
  unfold seNetNoStateTax halfSeDeduction
  norm_num [calcSeTax_placeholder_zero, calcFederalPlaceholder_zero, max_def]

/-- The ruleset environment of the C4 scenarios (no compiled state rules). -/
def c4cfg : Cfg := { lookup := fun _ => none, baseRules := {} }

/-- C4 (amended): for a scenario whose (normalized) state has no income
tax — where the comparison's 1099 net-income function is explicit,
monotone and 1-Lipschitz — whenever the doubling phase actually brackets
the target (the 1099 net income at 0 is at most the W-2 net income, the
net income at the final upper bound `H` reaches it, and `H < 2^30`),
`findBreakEven` returns a break-even gross income whose 1099 net income is
within 1.0 dollar of the W-2 net income.  Without the bracketing
hypotheses the search can miss by an arbitrary amount (see the
counterexample). -/
theorem findBreakEven_converges (cfg : Cfg) (p : BreakEvenParams)
    (hstate : normalizeState p.state ∈ NO_INCOME_TAX_STATES)
    (h0 : seNetNoStateTax p.expenses p.standardDeduction 0 ≤
      w2NetNoStateTax p.w2Salary p.standardDeduction)
    (h1 : w2NetNoStateTax p.w2Salary p.standardDeduction ≤
      seNetNoStateTax p.expenses p.standardDeduction
        (doublePure (seNetNoStateTax p.expenses p.standardDeduction)
          (w2NetNoStateTax p.w2Salary p.standardDeduction) 12
          (max 1 (p.w2Salary * 5))))
    (h2 : doublePure (seNetNoStateTax p.expenses p.standardDeduction)
      (w2NetNoStateTax p.w2Salary p.standardDeduction) 12
      (max 1 (p.w2Salary * 5)) < 2 ^ 30) :
    ∃ bE, findBreakEven cfg p = .ok bE ∧
      |seNetNoStateTax p.expenses p.standardDeduction bE -
        w2NetNoStateTax p.w2Salary p.standardDeduction| < 1 := by
  rw [findBreakEven_noTaxState cfg p hstate]
  set f := seNetNoStateTax p.expenses p.standardDeduction with hf
  set t := w2NetNoStateTax p.w2Salary p.standardDeduction with ht
  set H := doublePure f t 12 (max 1 (p.w2Salary * 5)) with hH
  refine ⟨_, rfl, ?_⟩
  have hH1 : (1:ℚ) ≤ H := doublePure_ge_one f t 12 _ (le_max_left 1 _)
  have hinv := bisectPure_invariant f t 30 0 H 0 (by linarith) h0 h1 (Or.inl rfl)
  obtain ⟨hle, hfl, hfh, hwidth, hmid⟩ := hinv
  set s := bisectPure f t 30 (0, H, 0) with hs
  have hlip : f s.2.1 - f s.1 ≤ s.2.1 - s.1 :=
    (seNetNoStateTax_mono_lip p.expenses p.standardDeduction hle).2
  have hwlt : s.2.1 - s.1 < 1 := by
    rw [hwidth, sub_zero, div_lt_one (by positivity)]
    exact h2
  rcases hmid with hm | hm
  · rw [hm, abs_lt]
    exact ⟨by linarith, by linarith⟩
  · rw [hm, abs_lt]
    exact ⟨by linarith, by linarith⟩

/-- Break-even parameters with no W-2 salary and 1000000 of expenses. -/
def c4cexParams : BreakEvenParams :=
  { year := 2026, w2Salary := 0, state := "TX", expenses := 1000000,
    standardDeduction := 15000 }

/-- C4 counterexample: with w2Salary 0 (target net 0) and expenses 1000000,
the doubling phase starts at 1 and exhausts its 12 iterations at 4096,
where the 1099 net income is still 4096 - 1000000 < 0: the target is never
bracketed, the bisection collapses onto the upper bound, and findBreakEven
returns ≈ 4096, whose 1099 net income misses the W-2 net income by nearly
a million dollars — not within 1.0. -/
theorem findBreakEven_divergence_cex :
    findBreakEven c4cfg c4cexParams = .ok (4096 - 4096 / 2 ^ 30) ∧
    1 ≤ |seNetNoStateTax 1000000 15000 (4096 - 4096 / 2 ^ 30) -
      w2NetNoStateTax 0 15000| := by
  have htgt : w2NetNoStateTax 0 15000 = 0 := w2Net_zeroSalary
  have hdp : doublePure (seNetNoStateTax 1000000 15000) (w2NetNoStateTax 0 15000) 12
      (max 1 ((0:ℚ) * 5)) = 4096 := by
    rw [htgt]
    have hmax : max (1:ℚ) (0 * 5) = 1 := by norm_num
    rw [hmax]
    have hbelow : ∀ k : Nat, k < 12 →
        seNetNoStateTax 1000000 15000 (1 * 2 ^ k) < 0 := by
      intro k hk
      have h2k : (2:ℚ) ^ k ≤ 2 ^ 11 := pow_le_pow_right (by norm_num) (by omega)
      rw [one_mul, seNet_expensesDominate _ (by norm_num at h2k ⊢; linarith)]
      norm_num at h2k ⊢
      linarith
    rw [doublePure_allBelow 12 1 hbelow]
    norm_num
  constructor
  · rw [findBreakEven_noTaxState c4cfg c4cexParams (by decide)]
    show Except.ok (bisectPure (seNetNoStateTax 1000000 15000)
      (w2NetNoStateTax 0 15000) 30
      (0, doublePure (seNetNoStateTax 1000000 15000) (w2NetNoStateTax 0 15000) 12
        (max 1 ((0:ℚ) * 5)), 0)).2.2 = _
    rw [hdp, htgt]
    have h30 : (30:ℕ) = 29 + 1 := by norm_num
    rw [h30]
    rw [bisectPure_allBelow (seNetNoStateTax 1000000 15000) 0 29 0 0 4096
      (by norm_num)
      (fun x hx1 hx2 => by
        rw [seNet_expensesDominate x (by linarith)]
        linarith)]
    norm_num
  · rw [seNet_expensesDominate _ (by norm_num), htgt]
    rw [abs_of_nonpos (by norm_num)]
    norm_num

/-- Break-even parameters for the witness: no salary, no expenses. -/
def c4wParams : BreakEvenParams :=
  { year := 2026, w2Salary := 0, state := "WA", expenses := 0,
    standardDeduction := 15000 }

theorem c4w_doublePure_eq_one :
    doublePure (seNetNoStateTax 0 15000) (w2NetNoStateTax 0 15000) 12
      (max 1 ((0:ℚ) * 5)) = 1 := by
  have hmax : max (1:ℚ) (0 * 5) = 1 := by norm_num
  rw [hmax]
  refine doublePure_stop ?_ (by norm_num)
  rw [w2Net_zeroSalary]
  have hm := (seNetNoStateTax_mono_lip 0 15000 (show (0:ℚ) ≤ 1 by norm_num)).1
  rw [seNet_zeroIncome] at hm
  exact hm

theorem c4w_bracketed : w2NetNoStateTax 0 15000 ≤
    seNetNoStateTax 0 15000
      (doublePure (seNetNoStateTax 0 15000) (w2NetNoStateTax 0 15000) 12
        (max 1 ((0:ℚ) * 5))) := by
  rw [c4w_doublePure_eq_one, w2Net_zeroSalary]
  have hm := (seNetNoStateTax_mono_lip 0 15000 (show (0:ℚ) ≤ 1 by norm_num)).1
  rw [seNet_zeroIncome] at hm
  exact hm

theorem findBreakEven_converges_witness :
    ∃ bE, findBreakEven c4cfg c4wParams = .ok bE ∧
      |seNetNoStateTax 0 15000 bE - w2NetNoStateTax 0 15000| < 1 :=
  findBreakEven_converges c4cfg c4wParams (by decide)
    (by
      show seNetNoStateTax 0 15000 0 ≤ w2NetNoStateTax 0 15000
      rw [seNet_zeroIncome, w2Net_zeroSalary])
    c4w_bracketed
    (by
      show doublePure (seNetNoStateTax 0 15000) (w2NetNoStateTax 0 15000) 12
        (max 1 ((0:ℚ) * 5)) < 2 ^ 30
      rw [c4w_doublePure_eq_one]
      norm_num)

end ClaimC4Main
